import Mathlib

/-!
# Verification of the thyme-sdk sandbox runner and secure archive pipeline

This file is a shallow embedding, in Lean 4, of the security-relevant core of
the `bnhpio/thyme-sdk` repository:

* the Deno process-isolation launcher (`packages/cli/src/deno/runner.ts`):
  `escapeJsString`, `sanitizeErrorMessage`, the Deno flag construction, the
  generated execution script, and the output-classification / result-decoding
  logic of `runInDeno`;
* the in-process capture sandbox (`packages/sdk/src/sandbox/sandbox.ts`):
  its console-patching / `process.env`-hiding control flow with `try/catch/finally`;
* the secure archive packager/unpacker (`compressTask` / `decompressTask` of the
  SDK archive module): SHA-256 checksums and the two-stage ZIP-bomb guards.

Modelling conventions, used throughout:

* Byte sequences (`Uint8Array`, `Buffer`) are `List Nat`, each element a byte
  value.  Machine arithmetic that wraps (SHA-256 words, the rolling checksum)
  is carried out on `Nat`/`Int` with explicit reduction modulo `2 ^ 32`.
* JavaScript strings are Lean `String`s; string algorithms (`trim`, `split`,
  `replace`, `substring`) are defined structurally over `String.data` so that
  every definition is executable.  JS counts UTF-16 code units where Lean
  counts characters; the two agree on all inputs considered here, and none of
  the verified properties depends on the difference.
* External library functions used by the source are modelled by executable Lean
  definitions of their documented contracts: `fflate.strToU8`/`strFromU8` as
  UTF-8 encoding/decoding, `node:crypto` SHA-256 as a full executable FIPS
  180-4 implementation, and `fflate.zipSync`/`unzipSync` as a lossless
  named-entry container whose per-entry compression is run-length coding
  (this preserves exactly the two facts the source relies on: losslessness,
  and a compressed size that can be far smaller than the decompressed size).
  Theorems about the unpacker's guards are stated parametrically in the
  decompression function wherever the source's behaviour does not depend on it.
* Fallible code (`throw`) is modelled with `Except String`; promise-returning
  code that only ever resolves is modelled as a total function of the
  underlying process outcome.
* A few recursions use an explicit fuel argument whose start value strictly
  dominates the number of possible steps (each step consumes at least one
  character), so the out-of-fuel branch is unreachable; this keeps the
  definitions structurally recursive and hence evaluable by `decide`.
-/

namespace Thyme

/-! ## UTF-8 byte/string conversion (model of fflate `strToU8` / `strFromU8`) -/

/-- Standard UTF-8 encoding of one Unicode scalar value (1–4 bytes).  This is
the documented behaviour of `fflate.strToU8` (a `TextEncoder`). -/
def utf8EncodeChar (c : Char) : List Nat :=
  let n := c.toNat
  if n < 0x80 then [n]
  else if n < 0x800 then [0xC0 + n / 0x40, 0x80 + n % 0x40]
  else if n < 0x10000 then
    [0xE0 + n / 0x1000, 0x80 + n / 0x40 % 0x40, 0x80 + n % 0x40]
  else
    [0xF0 + n / 0x40000, 0x80 + n / 0x1000 % 0x40, 0x80 + n / 0x40 % 0x40, 0x80 + n % 0x40]

/-- Model of `fflate.strToU8`: UTF-8 bytes of a string. -/
def strToU8 (s : String) : List Nat := s.data.flatMap utf8EncodeChar

/-- U+FFFD, produced by a lenient UTF-8 decoder on malformed input. -/
def replacementChar : Char := '�'

/-- Number of bytes of the UTF-8 sequence introduced by lead byte `b`. -/
def utf8CharLen (b : Nat) : Nat :=
  if b < 0x80 then 1 else if b < 0xE0 then 2 else if b < 0xF0 then 3 else 4

/-- Decode one UTF-8 sequence: lead byte `b` and its continuation bytes. -/
def utf8DecodeOne (b : Nat) (cont : List Nat) : Char :=
  if b < 0x80 then Char.ofNat b
  else if b < 0xE0 then
    match cont with
    | b1 :: _ => Char.ofNat ((b - 0xC0) * 0x40 + (b1 - 0x80))
    | _ => replacementChar
  else if b < 0xF0 then
    match cont with
    | b1 :: b2 :: _ => Char.ofNat ((b - 0xE0) * 0x1000 + (b1 - 0x80) * 0x40 + (b2 - 0x80))
    | _ => replacementChar
  else
    match cont with
    | b1 :: b2 :: b3 :: _ =>
      Char.ofNat ((b - 0xF0) * 0x40000 + (b1 - 0x80) * 0x1000 + (b2 - 0x80) * 0x40 + (b3 - 0x80))
    | _ => replacementChar

/-- Model of the decoder behind `fflate.strFromU8`: lenient UTF-8 decoding
(malformed input yields U+FFFD, it never fails).  On the image of `strToU8`
it is an exact inverse, which is the property the archive round trip uses. -/
def utf8Decode (l : List Nat) : List Char :=
  match l with
  | [] => []
  | b :: bs =>
    if bs.length + 1 < utf8CharLen b then [replacementChar]
    else utf8DecodeOne b (bs.take (utf8CharLen b - 1)) :: utf8Decode (bs.drop (utf8CharLen b - 1))
termination_by l.length
decreasing_by
  simp only [List.length_cons, List.length_drop]
  omega

/-- Model of `fflate.strFromU8`. -/
def strFromU8 (bs : List Nat) : String := String.mk (utf8Decode bs)

/-! ## Compressed container (model of fflate `zipSync` / `unzipSync`)

The source treats `zipSync`/`unzipSync` as a black-box lossless archive of
named byte entries, compressed per entry (`level: 6`).  The model keeps both
properties that the archive pipeline relies on: `unzipSyncModel` inverts
`zipSyncModel`, and an entry of `n` equal bytes occupies `O(1)` compressed
space (run-length coding), so the compressed form can be arbitrarily smaller
than the decompressed entries — which is what makes the stage-2
decompression bound a meaningful, reachable guard.  The element values of the
compressed stream are unbounded naturals rather than bytes; only its length
and its losslessness matter to any statement below. -/

/-- Push one byte onto the front of a run list, extending the first run when
it carries the same byte. -/
def rleCons (b : Nat) : List (Nat × Nat) → List (Nat × Nat)
  | [] => [(1, b)]
  | (n, c) :: rest => if c = b then (n + 1, b) :: rest else (1, b) :: (n, c) :: rest

/-- Run-length encode a byte list into (count, byte) runs. -/
def rleEncode : List Nat → List (Nat × Nat)
  | [] => []
  | b :: bs => rleCons b (rleEncode bs)

/-- Expand (count, byte) runs back into a byte list. -/
def rleDecode (runs : List (Nat × Nat)) : List Nat :=
  runs.flatMap fun r => List.replicate r.1 r.2

/-- Flatten runs into the compressed stream: count, byte, count, byte, … -/
def encodeRuns (runs : List (Nat × Nat)) : List Nat :=
  runs.flatMap fun r => [r.1, r.2]

/-- One archive entry in the compressed stream: name length, name bytes,
run count, runs. -/
def encodeEntry (e : String × List Nat) : List Nat :=
  (strToU8 e.1).length :: strToU8 e.1 ++ ((rleEncode e.2).length :: encodeRuns (rleEncode e.2))

/-- Model of `fflate.zipSync` at `level: 6`: entry count, then the entries. -/
def zipSyncModel (files : List (String × List Nat)) : List Nat :=
  files.length :: files.flatMap encodeEntry

/-- Read `count` (count, byte) runs off the stream. -/
def decodeRuns : Nat → List Nat → Option (List (Nat × Nat) × List Nat)
  | 0, bs => some ([], bs)
  | Nat.succ k, cnt :: b :: bs =>
    (decodeRuns k bs).map fun p => ((cnt, b) :: p.1, p.2)
  | Nat.succ _, _ => none

/-- Read the run-count-prefixed tail of one entry off the stream. -/
def decodeEntryTail (nameBytes : List Nat) (rest : List Nat) :
    Option ((String × List Nat) × List Nat) :=
  match rest with
  | [] => none
  | runCount :: rest2 =>
    (decodeRuns runCount rest2).map fun p => ((strFromU8 nameBytes, rleDecode p.1), p.2)

/-- Read one named entry off the stream. -/
def decodeEntry (bs : List Nat) : Option ((String × List Nat) × List Nat) :=
  match bs with
  | [] => none
  | nameLen :: rest =>
    if nameLen ≤ rest.length then decodeEntryTail (rest.take nameLen) (rest.drop nameLen)
    else none

/-- Read `count` named entries off the stream. -/
def decodeEntries : Nat → List Nat → Option (List (String × List Nat) × List Nat)
  | 0, bs => some ([], bs)
  | Nat.succ k, bs =>
    (decodeEntry bs).bind fun er => (decodeEntries k er.2).map fun p => (er.1 :: p.1, p.2)

/-- Accept a fully consumed stream of entries, reject everything else. -/
def unzipFinish (r : Option (List (String × List Nat) × List Nat)) :
    Except String (List (String × List Nat)) :=
  match r with
  | some (files, []) => Except.ok files
  | _ => Except.error "invalid zip data"

/-- Model of `fflate.unzipSync`: the named entries of a compressed container,
or an error on malformed input (`unzipSync` throws on such input). -/
def unzipSyncModel (bs : List Nat) : Except String (List (String × List Nat)) :=
  match bs with
  | [] => Except.error "invalid zip data"
  | count :: rest => unzipFinish (decodeEntries count rest)

/-! ## SHA-256 (model of `node:crypto` `createHash('sha256')`)

A full executable FIPS 180-4 implementation over byte lists, with 32-bit
words carried as `Nat` reduced modulo `2 ^ 32`.  `sha256Hex_abc` below checks
it against the standard test vector. -/

/-- Reduce to a 32-bit word. -/
def w32 (n : Nat) : Nat := n % 4294967296

/-- Rotate a 32-bit word right by `k` bits. -/
def rotr32 (k x : Nat) : Nat := (x >>> k) ||| w32 (x <<< (32 - k))

/-- FIPS 180-4 small sigma 0. -/
def ssig0 (x : Nat) : Nat := rotr32 7 x ^^^ rotr32 18 x ^^^ (x >>> 3)

/-- FIPS 180-4 small sigma 1. -/
def ssig1 (x : Nat) : Nat := rotr32 17 x ^^^ rotr32 19 x ^^^ (x >>> 10)

/-- FIPS 180-4 big sigma 0. -/
def bsig0 (x : Nat) : Nat := rotr32 2 x ^^^ rotr32 13 x ^^^ rotr32 22 x

/-- FIPS 180-4 big sigma 1. -/
def bsig1 (x : Nat) : Nat := rotr32 6 x ^^^ rotr32 11 x ^^^ rotr32 25 x

/-- The 64 SHA-256 round constants. -/
def sha256K : List Nat := [
  1116352408, 1899447441, 3049323471, 3921009573,
  961987163, 1508970993, 2453635748, 2870763221,
  3624381080, 310598401, 607225278, 1426881987,
  1925078388, 2162078206, 2614888103, 3248222580,
  3835390401, 4022224774, 264347078, 604807628,
  770255983, 1249150122, 1555081692, 1996064986,
  2554220882, 2821834349, 2952996808, 3210313671,
  3336571891, 3584528711, 113926993, 338241895,
  666307205, 773529912, 1294757372, 1396182291,
  1695183700, 1986661051, 2177026350, 2456956037,
  2730485921, 2820302411, 3259730800, 3345764771,
  3516065817, 3600352804, 4094571909, 275423344,
  430227734, 506948616, 659060556, 883997877,
  958139571, 1322822218, 1537002063, 1747873779,
  1955562222, 2024104815, 2227730452, 2361852424,
  2428436474, 2756734187, 3204031479, 3329325298]

/-- The SHA-256 initial hash value. -/
def sha256Init : List Nat :=
  [1779033703, 3144134277, 1013904242, 2773480762, 1359893119, 2600822924, 528734635, 1541459225]

/-- The first 16 schedule words of a 64-byte block, big-endian. -/
def sha256Words (block : List Nat) : List Nat :=
  (List.range 16).map fun i =>
    block.getD (4 * i) 0 * 0x1000000 + block.getD (4 * i + 1) 0 * 0x10000
      + block.getD (4 * i + 2) 0 * 0x100 + block.getD (4 * i + 3) 0

/-- Extend the 16 block words to the 64-word message schedule. -/
def sha256Schedule (block : List Nat) : List Nat :=
  (List.range 48).foldl
    (fun w _ =>
      w ++ [w32 (ssig1 (w.getD (w.length - 2) 0) + w.getD (w.length - 7) 0
        + ssig0 (w.getD (w.length - 15) 0) + w.getD (w.length - 16) 0)])
    (sha256Words block)

/-- The eight working variables of the compression loop. -/
structure Sha256State where
  a : Nat
  b : Nat
  c : Nat
  d : Nat
  e : Nat
  f : Nat
  g : Nat
  h : Nat

/-- One round of the SHA-256 compression loop; `kw` is the pair of the round
constant and the schedule word. -/
def sha256Round (st : Sha256State) (kw : Nat × Nat) : Sha256State :=
  let ch := (st.e &&& st.f) ^^^ ((0xFFFFFFFF ^^^ st.e) &&& st.g)
  let maj := (st.a &&& st.b) ^^^ (st.a &&& st.c) ^^^ (st.b &&& st.c)
  let t1 := w32 (st.h + bsig1 st.e + ch + kw.1 + kw.2)
  let t2 := w32 (bsig0 st.a + maj)
  { a := w32 (t1 + t2), b := st.a, c := st.b, d := st.c,
    e := w32 (st.d + t1), f := st.e, g := st.f, h := st.g }

/-- Compress one 64-byte block into the running hash (eight words). -/
def sha256Compress (hs : List Nat) (block : List Nat) : List Nat :=
  let st0 : Sha256State :=
    { a := hs.getD 0 0, b := hs.getD 1 0, c := hs.getD 2 0, d := hs.getD 3 0,
      e := hs.getD 4 0, f := hs.getD 5 0, g := hs.getD 6 0, h := hs.getD 7 0 }
  let st := (sha256K.zip (sha256Schedule block)).foldl sha256Round st0
  [w32 (hs.getD 0 0 + st.a), w32 (hs.getD 1 0 + st.b), w32 (hs.getD 2 0 + st.c),
    w32 (hs.getD 3 0 + st.d), w32 (hs.getD 4 0 + st.e), w32 (hs.getD 5 0 + st.f),
    w32 (hs.getD 6 0 + st.g), w32 (hs.getD 7 0 + st.h)]

/-- SHA-256 padding: 0x80, zeros to 56 mod 64, then the bit length as eight
big-endian bytes. -/
def sha256Pad (msg : List Nat) : List Nat :=
  msg ++ [0x80] ++ List.replicate ((119 - msg.length % 64) % 64) 0
    ++ (List.range 8).map fun i => msg.length * 8 / 2 ^ (8 * (7 - i)) % 256

/-- Split a padded message into 64-byte blocks; fuelled structural recursion
(each step consumes at least one byte, so fuel = length suffices). -/
def toBlocksF : Nat → List Nat → List (List Nat)
  | 0, _ => []
  | _, [] => []
  | Nat.succ fuel, b :: bs => (b :: bs).take 64 :: toBlocksF fuel ((b :: bs).drop 64)

/-- Split a padded message into 64-byte blocks. -/
def toBlocks (l : List Nat) : List (List Nat) := toBlocksF l.length l

/-- The SHA-256 digest of a byte list, as eight 32-bit words. -/
def sha256Digest (msg : List Nat) : List Nat :=
  (toBlocks (sha256Pad msg)).foldl sha256Compress sha256Init

/-- Lower-case hexadecimal digit. -/
def hexDigit (n : Nat) : Char := if n < 10 then Char.ofNat (48 + n) else Char.ofNat (87 + n)

/-- Eight lower-case hex digits of a 32-bit word, most significant first. -/
def wordToHex (w : Nat) : List Char :=
  (List.range 8).map fun i => hexDigit (w / 2 ^ (4 * (7 - i)) % 16)

/-- The lower-case hex SHA-256 digest of a byte list: the model of
`createHash('sha256').update(data).digest('hex')`. -/
def sha256Hex (data : List Nat) : String :=
  String.mk ((sha256Digest data).flatMap wordToHex)

/-! ## Secure archive packager / unpacker

Embedding of the SDK archive module (`compressTask` / `decompressTask`,
re-exported by the CLI's `utils/compress.ts`).  The superseded variant that
used a weak rolling checksum is modelled alongside as `simpleChecksum` for
comparison. -/

/-- ZIP-bomb protection: maximum accepted compressed size (10 MB). -/
def MAX_ZIP_SIZE : Nat := 10 * 1024 * 1024

/-- ZIP-bomb protection: maximum accepted total decompressed size (50 MB). -/
def MAX_DECOMPRESSED_SIZE : Nat := 50 * 1024 * 1024

/-- `calculateSha256` from the source: hex SHA-256 digest of the bytes. -/
def calculateSha256 (data : List Nat) : String := sha256Hex data

/-- Result of `compressTask`: the compressed container and its checksum. -/
structure CompressResult where
  zipBuffer : List Nat
  checksum : String

/-- Result of `decompressTask`: the two recovered texts. -/
structure DecompressResult where
  source : String
  bundle : String

/-- `compressTask` (current SDK variant): ZIP the two named entries at
level 6 and checksum the compressed bytes with SHA-256. -/
def compressTask (source bundle : String) : CompressResult :=
  let compressed := zipSyncModel [("source.ts", strToU8 source), ("bundle.js", strToU8 bundle)]
  { zipBuffer := compressed, checksum := calculateSha256 compressed }

/-- 32-bit signed wrap of an integer: the value of JS `x | 0` (and of
`x & x` on a large number). -/
def toInt32 (n : Int) : Int := (n + 2147483648) % 4294967296 - 2147483648

/-- The checksum of the superseded `compressTask` variant: the JS rolling
hash `hash = (hash << 5) - hash + byte; hash = hash & hash` over the
compressed bytes, then `Math.abs(hash).toString(16)`.  (One outer 32-bit
wrap per step is exact: the wrap of the shifted term commutes with the
final wrap.) -/
def simpleChecksum (data : List Nat) : String :=
  String.mk (Nat.toDigits 16 (data.foldl (fun hash byte => toInt32 (hash * 32 - hash + byte)) 0).natAbs)

/-- The entry checks of `decompressTask`: both named entries must be present
(`if (!sourceBytes)` / `if (!bundleBytes)` in the source — a `Uint8Array` is
always truthy, so the JS test is exactly a presence test). -/
def checkEntries (decompressed : List (String × List Nat)) : Except String DecompressResult :=
  if (decompressed.lookup "source.ts").isNone then
    Except.error "source.ts not found in ZIP archive"
  else if (decompressed.lookup "bundle.js").isNone then
    Except.error "bundle.js not found in ZIP archive"
  else
    Except.ok { source := strFromU8 ((decompressed.lookup "source.ts").getD []),
                bundle := strFromU8 ((decompressed.lookup "bundle.js").getD []) }

/-- Stage 2 of `decompressTask`: sum the decompressed entry sizes and reject
the container when they exceed `MAX_DECOMPRESSED_SIZE`. -/
def decompressStage2 (decompressed : List (String × List Nat)) : Except String DecompressResult :=
  if (decompressed.map fun f => f.2.length).sum > MAX_DECOMPRESSED_SIZE then
    Except.error ("Decompressed content too large: "
      ++ toString (decompressed.map fun f => f.2.length).sum
      ++ " bytes (max: " ++ toString MAX_DECOMPRESSED_SIZE ++ ")")
  else checkEntries decompressed

/-- `decompressTask`, parametric in the decompression routine (the source
calls `fflate.unzipSync` there).  Keeping the routine a parameter lets the
stage-1 theorem quantify over it, which is the shallow-embedding reading of
"decompression is not attempted on the oversized branch". -/
def decompressTaskWith (unzip : List Nat → Except String (List (String × List Nat)))
    (zipBuffer : List Nat) : Except String DecompressResult :=
  if zipBuffer.length > MAX_ZIP_SIZE then
    Except.error ("ZIP file too large: " ++ toString zipBuffer.length
      ++ " bytes (max: " ++ toString MAX_ZIP_SIZE ++ ")")
  else (unzip zipBuffer).bind decompressStage2

/-- `decompressTask` from the source: stage-1 size guard, decompression,
stage-2 size guard, entry checks, byte-to-text conversion. -/
def decompressTask (zipBuffer : List Nat) : Except String DecompressResult :=
  decompressTaskWith unzipSyncModel zipBuffer

/-- A source text of 50 MB + 1 bytes: the round-trip counterexample. -/
def bigSource : String := String.mk (List.replicate 52428801 'a')

/-- A container whose single entry decompresses to 50 MB + 1 bytes while the
container itself is 14 elements long: the stage-2 witness. -/
def bombBuf : List Nat := zipSyncModel [("source.ts", List.replicate 52428801 97)]

/-! ## Sanitizers of the Deno runner (`packages/cli/src/deno/runner.ts`) -/

/-- One global single-character regex replacement, as `String.replace(/c/g, repl)`
performs it for a single-character pattern. -/
def replaceChar (target : Char) (repl : List Char) (l : List Char) : List Char :=
  l.flatMap fun c => if c = target then repl else [c]

/-- The seven sequential global replacements of `escapeJsString`, backslash
first (innermost application). -/
def escapeChain (l : List Char) : List Char :=
  replaceChar '\x00' ['\\', '0']
    (replaceChar '\t' ['\\', 't']
      (replaceChar '\r' ['\\', 'r']
        (replaceChar '\n' ['\\', 'n']
          (replaceChar '"' ['\\', '"']
            (replaceChar '\'' ['\\', '\'']
              (replaceChar '\\' ['\\', '\\'] l))))))

/-- `escapeJsString` from the source. -/
def escapeJsString (s : String) : String := String.mk (escapeChain s.data)

/-- The per-character view of `escapeJsString`; `escapeJsString_eq_escChar`
proves the two agree (the later stages never touch characters introduced by
the earlier ones). -/
def escChar (c : Char) : List Char :=
  if c = '\\' then ['\\', '\\']
  else if c = '\'' then ['\\', '\'']
  else if c = '"' then ['\\', '"']
  else if c = '\n' then ['\\', 'n']
  else if c = '\r' then ['\\', 'r']
  else if c = '\t' then ['\\', 't']
  else if c = '\x00' then ['\\', '0']
  else [c]

/-- Whitespace, as the regex class `\s` and `String.prototype.trim` see it
(modelled by `Char.isWhitespace`; the JS set is slightly larger, but no value
in this development contains the exotic members). -/
def isJsSpace (c : Char) : Bool := c.isWhitespace

/-- JS `String.prototype.trim` over the character list. -/
def jsTrim (l : List Char) : List Char :=
  ((l.dropWhile isJsSpace).reverse.dropWhile isJsSpace).reverse

/-- A character the path regex class `[^\s:]` accepts. -/
def isPathChar (c : Char) : Bool := !c.isWhitespace && !(c == ':')

/-- Index of the last occurrence of `c`. -/
def lastIdxOf (c : Char) : List Char → Option Nat
  | [] => none
  | x :: xs =>
    match lastIdxOf c xs with
    | some j => some (j + 1)
    | none => if x = c then some 0 else none

/-- The global replacement `error.replace(/\/[^\s:]+\//g, '.../')`: at each
`/`, the greedy run of path characters backtracks to the last `/` inside it
(the middle must be non-empty), the whole match becomes `.../`, and scanning
resumes after it.  Fuelled: every step consumes at least one character. -/
def stripPathsF : Nat → List Char → List Char
  | 0, l => l
  | _, [] => []
  | Nat.succ fuel, c :: rest =>
    if c = '/' then
      match lastIdxOf '/' (rest.takeWhile isPathChar) with
      | some j =>
        if 1 ≤ j then '.' :: '.' :: '.' :: '/' :: stripPathsF fuel (rest.drop (j + 1))
        else c :: stripPathsF fuel rest
      | none => c :: stripPathsF fuel rest
    else c :: stripPathsF fuel rest

/-- Path elision of `sanitizeErrorMessage`. -/
def stripPaths (l : List Char) : List Char := stripPathsF l.length l

/-- A line terminator, which the regex `.` refuses to match. -/
def isLineTerm (c : Char) : Bool := c == '\n' || c == '\r'

/-- Length of a match of `/\s+at\s+.+/` anchored at the start of `cs`, if
any: greedy whitespace, the literal `at`, greedy whitespace, then at least
one non-line-terminator — where, if nothing follows the second whitespace
run, its own last character backtracks into the `.+` when it is not a line
terminator. -/
def stackMatchLen (cs : List Char) : Option Nat :=
  let w1 := cs.takeWhile isJsSpace
  if w1.isEmpty then none
  else
    match cs.drop w1.length with
    | 'a' :: 't' :: t2 =>
      let w2 := t2.takeWhile isJsSpace
      if w2.isEmpty then none
      else
        let dots := (t2.drop w2.length).takeWhile fun c => !isLineTerm c
        if !dots.isEmpty then some (w1.length + 2 + w2.length + dots.length)
        else if 2 ≤ w2.length && !isLineTerm (w2.getLastD ' ') then
          some (w1.length + 2 + w2.length)
        else none
    | _ => none

/-- The global replacement `sanitized.replace(/\s+at\s+.+/g, '')`: scan left
to right, delete each leftmost match.  Fuelled: a match is never empty. -/
def stripStacksF : Nat → List Char → List Char
  | 0, l => l
  | _, [] => []
  | Nat.succ fuel, c :: rest =>
    if c.isWhitespace then
      match stackMatchLen (c :: rest) with
      | some n => stripStacksF fuel ((c :: rest).drop (max n 1))
      | none => c :: stripStacksF fuel rest
    else c :: stripStacksF fuel rest

/-- Stack-trace elision of `sanitizeErrorMessage`. -/
def stripStacks (l : List Char) : List Char := stripStacksF l.length l

/-- `sanitizeErrorMessage` from the source: elide absolute paths, remove
stack-trace fragments, cap at 500 characters with an ellipsis, trim. -/
def sanitizeErrorMessage (error : String) : String :=
  let s1 := stripStacks (stripPaths error.data)
  String.mk (jsTrim (if 500 < s1.length then s1.take 500 ++ ['.', '.', '.'] else s1))

/-! ## JSON values and `JSON.parse`

The runner decodes its marker payloads with `JSON.parse`.  The model parses
the JSON fragment the protocol uses (null, booleans, integers, strings,
arrays, objects); fractional and exponent number forms are not modelled —
no statement below depends on them, and the claim theorems about the runner
are parametric in the parsing function.  The parser is fuelled by the input
length: every descent consumes at least one character. -/

/-- JSON values. -/
inductive Json where
  | null : Json
  | bool (b : Bool) : Json
  | num (n : Int) : Json
  | str (s : String) : Json
  | arr (xs : List Json) : Json
  | obj (fields : List (String × Json)) : Json

/-- JSON insignificant whitespace. -/
def jsonWs (c : Char) : Bool := c == ' ' || c == '\t' || c == '\n' || c == '\r'

/-- Value of a hexadecimal digit. -/
def hexVal (c : Char) : Option Nat :=
  if c.isDigit then some (c.toNat - 48)
  else if 'a' ≤ c ∧ c ≤ 'f' then some (c.toNat - 87)
  else if 'A' ≤ c ∧ c ≤ 'F' then some (c.toNat - 55)
  else none

/-- Decimal digits to a number. -/
def digitsToNat (ds : List Char) : Nat := ds.foldl (fun acc c => acc * 10 + (c.toNat - 48)) 0

/-- Parse the body of a JSON string after the opening quote; returns the
characters and the remainder after the closing quote. -/
def parseJsonStr : List Char → Except String (List Char × List Char)
  | [] => Except.error "Unterminated string in JSON"
  | '"' :: rest => Except.ok ([], rest)
  | '\\' :: 'u' :: h1 :: h2 :: h3 :: h4 :: rest =>
    (match hexVal h1, hexVal h2, hexVal h3, hexVal h4 with
     | some a, some b, some c, some d =>
       let v := ((a * 16 + b) * 16 + c) * 16 + d
       if v.isValidChar then (parseJsonStr rest).map fun p => (Char.ofNat v :: p.1, p.2)
       else Except.error "Unsupported Unicode escape in JSON"
     | _, _, _, _ => Except.error "Bad Unicode escape in JSON")
  | '\\' :: e :: rest =>
    if e = '"' ∨ e = '\\' ∨ e = '/' then (parseJsonStr rest).map fun p => (e :: p.1, p.2)
    else if e = 'n' then (parseJsonStr rest).map fun p => ('\n' :: p.1, p.2)
    else if e = 't' then (parseJsonStr rest).map fun p => ('\t' :: p.1, p.2)
    else if e = 'r' then (parseJsonStr rest).map fun p => ('\r' :: p.1, p.2)
    else if e = 'b' then (parseJsonStr rest).map fun p => ('\x08' :: p.1, p.2)
    else if e = 'f' then (parseJsonStr rest).map fun p => ('\x0C' :: p.1, p.2)
    else Except.error "Bad escape in JSON string"
  | c :: rest => (parseJsonStr rest).map fun p => (c :: p.1, p.2)

mutual

/-- Parse one JSON value. -/
def parseJsonV : Nat → List Char → Except String (Json × List Char)
  | 0, _ => Except.error "JSON input too deeply nested"
  | Nat.succ fuel, l =>
    match l.dropWhile jsonWs with
    | [] => Except.error "Unexpected end of JSON input"
    | 'n' :: 'u' :: 'l' :: 'l' :: rest => Except.ok (Json.null, rest)
    | 't' :: 'r' :: 'u' :: 'e' :: rest => Except.ok (Json.bool true, rest)
    | 'f' :: 'a' :: 'l' :: 's' :: 'e' :: rest => Except.ok (Json.bool false, rest)
    | '"' :: rest => (parseJsonStr rest).map fun p => (Json.str (String.mk p.1), p.2)
    | '[' :: rest => parseJsonItems fuel rest
    | '\x7b' :: rest => parseJsonFields fuel rest
    | '-' :: c :: rest =>
      if c.isDigit then
        Except.ok (Json.num (-(Int.ofNat (digitsToNat (c :: rest.takeWhile Char.isDigit)))),
          rest.dropWhile Char.isDigit)
      else Except.error "Unexpected token in JSON"
    | c :: rest =>
      if c.isDigit then
        Except.ok (Json.num (Int.ofNat (digitsToNat (c :: rest.takeWhile Char.isDigit))),
          rest.dropWhile Char.isDigit)
      else Except.error "Unexpected token in JSON"

/-- Parse the items of a JSON array after `[`. -/
def parseJsonItems : Nat → List Char → Except String (Json × List Char)
  | 0, _ => Except.error "JSON input too deeply nested"
  | Nat.succ fuel, l =>
    match l.dropWhile jsonWs with
    | ']' :: rest => Except.ok (Json.arr [], rest)
    | l2 =>
      (parseJsonV fuel l2).bind fun p =>
        (parseJsonItemsRest fuel p.2).map fun q => (Json.arr (p.1 :: q.1), q.2)

/-- Parse `, item`* `]`. -/
def parseJsonItemsRest : Nat → List Char → Except String (List Json × List Char)
  | 0, _ => Except.error "JSON input too deeply nested"
  | Nat.succ fuel, l =>
    match l.dropWhile jsonWs with
    | ']' :: rest => Except.ok ([], rest)
    | ',' :: rest =>
      (parseJsonV fuel rest).bind fun p =>
        (parseJsonItemsRest fuel p.2).map fun q => (p.1 :: q.1, q.2)
    | _ => Except.error "Expected comma or closing bracket in JSON array"

/-- Parse the fields of a JSON object after the opening brace. -/
def parseJsonFields : Nat → List Char → Except String (Json × List Char)
  | 0, _ => Except.error "JSON input too deeply nested"
  | Nat.succ fuel, l =>
    match l.dropWhile jsonWs with
    | '\x7d' :: rest => Except.ok (Json.obj [], rest)
    | l2 =>
      (parseJsonField fuel l2).bind fun p =>
        (parseJsonFieldsRest fuel p.2).map fun q => (Json.obj (p.1 :: q.1), q.2)

/-- Parse one `"key": value` field. -/
def parseJsonField : Nat → List Char → Except String ((String × Json) × List Char)
  | 0, _ => Except.error "JSON input too deeply nested"
  | Nat.succ fuel, l =>
    match l.dropWhile jsonWs with
    | '"' :: rest =>
      (parseJsonStr rest).bind fun p =>
        match p.2.dropWhile jsonWs with
        | ':' :: rest2 => (parseJsonV fuel rest2).map fun q => ((String.mk p.1, q.1), q.2)
        | _ => Except.error "Expected colon in JSON object"
    | _ => Except.error "Expected string key in JSON object"

/-- Parse `, field`* and the closing brace. -/
def parseJsonFieldsRest : Nat → List Char → Except String (List (String × Json) × List Char)
  | 0, _ => Except.error "JSON input too deeply nested"
  | Nat.succ fuel, l =>
    match l.dropWhile jsonWs with
    | '\x7d' :: rest => Except.ok ([], rest)
    | ',' :: rest =>
      (parseJsonField fuel rest).bind fun p =>
        (parseJsonFieldsRest fuel p.2).map fun q => (p.1 :: q.1, q.2)
    | _ => Except.error "Expected comma or closing brace in JSON object"

end

/-- Model of `JSON.parse`: parse one value, allow trailing whitespace only. -/
def jsonParseModel (s : String) : Except String Json :=
  (parseJsonV (s.data.length + 1) s.data).bind fun p =>
    if (p.2.dropWhile jsonWs).isEmpty then Except.ok p.1
    else Except.error "Unexpected non-whitespace character after JSON data"

/-! ## The Deno launcher: output classification and the close handler

`runInDeno` returns a promise that only ever calls `resolve`: every path of
the `close` handler, and the `error` handler, produce a `RunResult`.  The
embedding therefore models `runInDeno` as a total function of the process
outcome (spawn error, or exit with code/stdout/stderr), parametric in the
`JSON.parse` function. -/

/-- `RunResult` from the source.  The decoded outcome and the stats values
are opaque JSON payloads to the launcher, so they are `Json` here. -/
structure RunResult where
  success : Bool
  result : Option Json := none
  logs : List String := []
  error : Option String := none
  executionTime : Option Json := none
  memoryUsed : Option Json := none
  rpcRequestCount : Option Json := none

/-- The result-line marker of the output protocol (16 characters). -/
def RESULT_MARKER : String := "__THYME_RESULT__"

/-- The stats-line marker of the output protocol (15 characters). -/
def STATS_MARKER : String := "__THYME_STATS__"

/-- The mutable loop state of the classification loop of the close handler:
the last seen result line payload, the last seen stats line payload, the
accumulated log lines. -/
structure LineScan where
  resultLine : Option String := none
  statsLine : Option String := none
  logs : List String := []

/-- One iteration of `for (const line of lines)`: a later marker line
overwrites `resultLine` / `statsLine` (plain assignment), a non-marker line
with non-empty trim is pushed onto the logs. -/
def classifyLine (acc : LineScan) (line : String) : LineScan :=
  if RESULT_MARKER.data.isPrefixOf line.data then
    { acc with resultLine := some (String.mk (line.data.drop 16)) }
  else if STATS_MARKER.data.isPrefixOf line.data then
    { acc with statsLine := some (String.mk (line.data.drop 15)) }
  else if (jsTrim line.data).isEmpty then acc
  else { acc with logs := acc.logs ++ [String.mk (jsTrim line.data)] }

/-- The whole classification loop. -/
def classifyLines (lines : List String) : LineScan := lines.foldl classifyLine {}

/-- JS `String.prototype.split('\n')` over the character list. -/
def splitOnChar (sep : Char) : List Char → List (List Char)
  | [] => [[]]
  | c :: rest =>
    if c = sep then [] :: splitOnChar sep rest
    else
      match splitOnChar sep rest with
      | h :: t => (c :: h) :: t
      | [] => [[c]]

/-- `stdout.trim().split('\n')` from the close handler. -/
def stdoutLines (stdout : String) : List String :=
  (splitOnChar '\n' (jsTrim stdout.data)).map String.mk

/-- JS property read `v.name` on a parsed JSON value: a lookup on an object,
`undefined` on other non-null values, a thrown `TypeError` on `null`. -/
def jsField (v : Json) (name : String) : Except String (Option Json) :=
  match v with
  | Json.obj fields => Except.ok (fields.lookup name)
  | Json.null =>
    Except.error ("Cannot read properties of null (reading '" ++ name ++ "')")
  | _ => Except.ok none

/-- The three stats property reads of the resolve call. -/
def statsFields (stats : Json) : Except String (Option Json × Option Json × Option Json) :=
  (jsField stats "executionTime").bind fun et =>
    (jsField stats "memoryUsed").bind fun mu =>
      (jsField stats "rpcRequestCount").map fun rc => (et, mu, rc)

/-- The `catch` of the close handler: every throw inside the parsing block
resolves `success: false` with the wrapped, sanitized message. -/
def failParse (logs : List String) (m : String) : RunResult :=
  { success := false, logs := logs,
    error := some (sanitizeErrorMessage ("Failed to parse result: " ++ m)) }

/-- The successful resolve, after the optional stats line was parsed. -/
def finishStats (result : Json) (logs : List String) (stats : Json) : RunResult :=
  match statsFields stats with
  | Except.error m => failParse logs m
  | Except.ok t =>
    { success := true, result := some result, logs := logs,
      executionTime := t.1, memoryUsed := t.2.1, rpcRequestCount := t.2.2 }

/-- Decode the stats line if present (`statsLine ? JSON.parse(statsLine) : …`);
absent stats resolve with undefined stats fields. -/
def decodeStats (jp : String → Except String Json) (result : Json) (logs : List String)
    (statsLine : Option String) : RunResult :=
  match statsLine with
  | none => { success := true, result := some result, logs := logs }
  | some sl =>
    match jp sl with
    | Except.error m => failParse logs m
    | Except.ok stats => finishStats result logs stats

/-- The `try` block of the close handler after classification: a missing
result line throws `No result found in output`, then the result payload and
the stats payload are parsed. -/
def decodeResult (jp : String → Except String Json) (scan : LineScan) : RunResult :=
  match scan.resultLine with
  | none => failParse scan.logs "No result found in output"
  | some rl =>
    match jp rl with
    | Except.error m => failParse scan.logs m
    | Except.ok result => decodeStats jp result scan.logs scan.statsLine

/-- The `close` handler of `runInDeno`: a non-zero exit code resolves
`success: false` with the sanitized stderr (or a fallback message — note the
`logs` array is still empty on this path, the loop never ran); exit code 0
classifies stdout and decodes the payloads. -/
def handleClose (jp : String → Except String Json) (code : Int) (stdout stderr : String) :
    RunResult :=
  if code ≠ 0 then
    { success := false, logs := [],
      error := some (sanitizeErrorMessage
        (if stderr = "" then "Process exited with code " ++ toString code else stderr)) }
  else decodeResult jp (classifyLines (stdoutLines stdout))

/-- How the spawned process can come back to the two handlers the promise
installs: the `error` event, or the `close` event with an exit code and the
accumulated output streams. -/
inductive ProcOutcome where
  | spawnError (message : String) : ProcOutcome
  | exited (code : Int) (stdout stderr : String) : ProcOutcome

/-- The promise value of `runInDeno` as a function of the process outcome:
both installed handlers only ever call `resolve`. -/
def runInDenoResult (jp : String → Except String Json) : ProcOutcome → RunResult
  | ProcOutcome.spawnError m =>
    { success := false, logs := [],
      error := some (sanitizeErrorMessage ("Failed to spawn Deno: " ++ m)) }
  | ProcOutcome.exited code stdout stderr => handleClose jp code stdout stderr

/-! ## The Deno launcher: configuration, capability flags and the generated
program -/

/-- `TaskConfig` from the source. -/
structure TaskConfig where
  memory : Nat
  timeout : Nat
  network : Bool
  rpcUrl : Option String

/-- The Node built-in module names the import map redirects. -/
def nodeBuiltins : List String :=
  ["assert", "buffer", "child_process", "cluster", "crypto", "dgram", "dns", "events",
   "fs", "http", "http2", "https", "net", "os", "path", "perf_hooks", "process",
   "querystring", "readline", "stream", "string_decoder", "timers", "tls", "tty",
   "url", "util", "v8", "vm", "zlib"]

/-- `JSON.stringify({ imports: importMap })` with insertion-ordered keys. -/
def importMapJson : String :=
  "\x7b\"imports\":\x7b"
    ++ String.intercalate ","
        (nodeBuiltins.map fun n => "\"" ++ n ++ "\":\"node:" ++ n ++ "\"")
    ++ "\x7d\x7d"

/-- Upper-case hexadecimal digit, for percent encoding. -/
def hexDigitUpper (n : Nat) : Char := if n < 10 then Char.ofNat (48 + n) else Char.ofNat (55 + n)

/-- A character `encodeURIComponent` passes through unescaped. -/
def uriUnreserved (c : Char) : Bool :=
  c.isAlphanum || c == '-' || c == '_' || c == '.' || c == '!' || c == '~' || c == '*'
    || c == '\'' || c == '(' || c == ')'

/-- Model of `encodeURIComponent`: percent-encode the UTF-8 bytes of every
reserved character. -/
def encodeURIComponent (s : String) : String :=
  String.mk (s.data.flatMap fun c =>
    if uriUnreserved c then [c]
    else (utf8EncodeChar c).flatMap fun b => ['%', hexDigitUpper (b / 16), hexDigitUpper (b % 16)])

/-- The import-map data URL passed to Deno. -/
def importMapDataUrl : String := "data:application/json," ++ encodeURIComponent importMapJson

/-- The capability flags `runInDeno` builds from the config, in push order:
base flags, the import map, the read-only filesystem scope, the optional
memory ceiling (`if (config.memory)` — zero is falsy), the optional network
allowance, and `-` for "read the program from stdin".  `config.timeout` is
never consulted. -/
def buildDenoFlags (taskDir : String) (config : TaskConfig) : List String :=
  (["run", "--no-prompt", "--import-map=" ++ importMapDataUrl, "--allow-read=" ++ taskDir]
    ++ (if config.memory ≠ 0 then ["--v8-flags=--max-old-space-size=" ++ toString config.memory]
        else [])
    ++ (if config.network then ["--allow-net"] else []))
    ++ ["-"]

/-- `JSON.stringify` on one string value. -/
def jsonEscapeChar (c : Char) : List Char :=
  if c = '"' then ['\\', '"']
  else if c = '\\' then ['\\', '\\']
  else if c = '\x08' then ['\\', 'b']
  else if c = '\x0C' then ['\\', 'f']
  else if c = '\n' then ['\\', 'n']
  else if c = '\r' then ['\\', 'r']
  else if c = '\t' then ['\\', 't']
  else if c.toNat < 0x20 then
    '\\' :: 'u' :: '0' :: '0' :: [hexDigit (c.toNat / 16), hexDigit (c.toNat % 16)]
  else [c]

/-- `JSON.stringify` of a string. -/
def jsonEncodeString (s : String) : String :=
  String.mk ('"' :: s.data.flatMap jsonEscapeChar ++ ['"'])

/-- `config.rpcUrl ? JSON.stringify(config.rpcUrl) : 'undefined'` — note the
JS truthiness test: an empty string also yields `undefined`. -/
def safeRpcUrlOf (rpcUrl : Option String) : String :=
  match rpcUrl with
  | some u => if u = "" then "undefined" else jsonEncodeString u
  | none => "undefined"

/-- The execution wrapper script of `runInDeno`, exactly as the template
literal builds it: the escaped task path, the serialized RPC URL and the
JSON-serialized sanitized arguments are the three interpolations. -/
def execScript (safeTaskPath argsJson safeRpcUrl : String) : String :=
  "\nimport task from '"
    ++ safeTaskPath
    ++ "';\nimport \x7b createPublicClient, http \x7d from 'npm:viem@2.21.54';\n\n// Logger for local development - prints directly to console\n// (In production, the logger outputs with __THYME_LOG__ prefix for capture)\nclass Logger \x7b\n\tinfo(message) \x7b\n\t\tconsole.log('[INFO]', message);\n\t\x7d\n\t\n\twarn(message) \x7b\n\t\tconsole.log('[WARN]', message);\n\t\x7d\n\t\n\terror(message) \x7b\n\t\tconsole.log('[ERROR]', message);\n\t\x7d\n\x7d\n\n// Create RPC request counter\nlet rpcRequestCount = 0;\n\n// Wrap the http transport to count requests\nconst countingHttp = (url) => \x7b\n\tconst baseTransport = http(url);\n\treturn (config) => \x7b\n\t\tconst transport = baseTransport(config);\n\t\treturn \x7b\n\t\t\t...transport,\n\t\t\trequest: async (params) => \x7b\n\t\t\t\trpcRequestCount++;\n\t\t\t\treturn transport.request(params);\n\t\t\t\x7d,\n\t\t\x7d;\n\t\x7d;\n\x7d;\n\n// Create public client for blockchain reads\nconst client = createPublicClient(\x7b\n\ttransport: countingHttp("
    ++ safeRpcUrl
    ++ "),\n\x7d);\n\nconst context = \x7b\n\targs: "
    ++ argsJson
    ++ ",\n\tclient,\n\tlogger: new Logger(),\n\x7d;\n\ntry \x7b\n\t// Track execution time and memory\n\tconst startTime = performance.now();\n\tconst startMemory = Deno.memoryUsage().heapUsed;\n\t\n\tconst result = await task.run(context);\n\t\n\tconst endTime = performance.now();\n\tconst endMemory = Deno.memoryUsage().heapUsed;\n\t\n\tconst executionTime = endTime - startTime;\n\t// Ensure memory measurement is non-negative (GC can cause negative values)\n\tconst memoryUsed = Math.max(0, endMemory - startMemory);\n\t\n\tconsole.log('__THYME_RESULT__' + JSON.stringify(result));\n\tconsole.log('__THYME_STATS__' + JSON.stringify(\x7b executionTime, memoryUsed, rpcRequestCount \x7d));\n\x7d catch (error) \x7b\n\tconsole.error('Task execution error:', error instanceof Error ? error.message : String(error));\n\tDeno.exit(1);\n\x7d\n"
/-- Everything observable that `runInDeno` derives from its inputs before
and after the process runs: the capability flags of the spawn, the program
text fed to stdin, and the handler that turns the process outcome into the
resolved `RunResult`. -/
structure LaunchPlan where
  flags : List String
  script : String
  handleOutcome : ProcOutcome → RunResult

/-- The launch behaviour of `runInDeno`, as a function of the task path, the
pre-serialized sanitized arguments and the config.  (`taskDir` is the
resolved containing directory of the task path.) -/
def runInDenoModel (jp : String → Except String Json) (taskDir absoluteTaskPath : String)
    (argsJson : String) (config : TaskConfig) : LaunchPlan :=
  { flags := buildDenoFlags taskDir config,
    script := execScript (escapeJsString absoluteTaskPath) argsJson (safeRpcUrlOf config.rpcUrl),
    handleOutcome := runInDenoResult jp }

/-! ## In-process capture sandbox (`packages/sdk/src/sandbox/sandbox.ts`)

The sandbox mutates two pieces of process-wide state: the console functions
and `process.env`.  Both are opaque to the control flow, so they are type
parameters; the state mutations of the source (`captureConsole`,
`restoreConsole`, `hideProcessEnv`) are modelled as functions on that state
and threaded through the `try`/`catch`/`finally` structure exactly as the
source sequences them.  Which steps of the body fail, and how, is a
`SandboxScenario`. -/

/-- The process-wide state the sandbox touches. -/
structure SandboxHost (C E : Type) where
  console : C
  env : E

/-- `captureConsole()`: install the patched logging functions. -/
def captureConsole {C E : Type} (patched : C) (h : SandboxHost C E) : SandboxHost C E :=
  { h with console := patched }

/-- `restoreConsole()`: reinstall the functions saved in `originalConsole`. -/
def restoreConsole {C E : Type} (original : C) (h : SandboxHost C E) : SandboxHost C E :=
  { h with console := original }

/-- `hideProcessEnv()`: replace `process.env` with an empty view.  Note the
source saves nothing before this assignment. -/
def hideProcessEnv {C E : Type} (emptyEnv : E) (h : SandboxHost C E) : SandboxHost C E :=
  { h with env := emptyEnv }

/-- Outcome of the shape checks on the dynamically imported module. -/
inductive ModuleShape where
  | noDefault : ModuleShape
  | noRun : ModuleShape
  | ok : ModuleShape

/-- What `runner.run(contextObj)` does. -/
inductive RunBehavior (T : Type) where
  | succeeds (result : T) : RunBehavior T
  | raises (message : String) : RunBehavior T

/-- One execution scenario of `sandbox`: which steps fail, and how. -/
structure SandboxScenario (T : Type) where
  writeError : Option String
  importError : Option String
  moduleShape : ModuleShape
  runBehavior : RunBehavior T
  unlinkFails : Bool

/-- The `try` body after the temp file was written: capture the console,
hide the env, import, validate, run; on success the body itself restores
the console before returning.  Returns the raw outcome (an uncaught error
or the result) and the process-wide state at the end of the body. -/
def sandboxTry {C E T : Type} (originalConsole patched : C) (emptyEnv : E)
    (sc : SandboxScenario T) (h0 : SandboxHost C E) : Except String T × SandboxHost C E :=
  let h1 := hideProcessEnv emptyEnv (captureConsole patched h0)
  match sc.importError with
  | some m => (Except.error m, h1)
  | none =>
    match sc.moduleShape with
    | ModuleShape.noDefault =>
      (Except.error ("Default export is not available. Make sure your template exports "
        ++ "default: export default \x7b run, fail, success \x7d"), h1)
    | ModuleShape.noRun =>
      (Except.error ("run function is not available. Make sure your template exports "
        ++ "default with a run function: export default \x7b run: onRun<Args>(async (ctx) "
        ++ "=> \x7b ... \x7d) \x7d"), h1)
    | ModuleShape.ok =>
      match sc.runBehavior with
      | RunBehavior.raises m => (Except.error m, h1)
      | RunBehavior.succeeds r => (Except.ok r, restoreConsole originalConsole h1)

/-- The whole `sandbox` call: `originalConsole` is saved up front; a write
failure throws before any state is touched; the `catch` wraps every raised
error into `Sandbox execution failed: …`; the `finally` runs
`restoreConsole()` and then attempts the unlink, whose failure is swallowed
(and which touches no process-wide state either way). -/
def sandboxModel {C E T : Type} (patched : C) (emptyEnv : E) (sc : SandboxScenario T)
    (h0 : SandboxHost C E) : Except String T × SandboxHost C E :=
  let originalConsole := h0.console
  match sc.writeError with
  | some m =>
    (Except.error ("Sandbox execution failed: " ++ m), restoreConsole originalConsole h0)
  | none =>
    let body := sandboxTry originalConsole patched emptyEnv sc h0
    let wrapped := match body.1 with
      | Except.ok r => Except.ok r
      | Except.error m => Except.error ("Sandbox execution failed: " ++ m)
    (wrapped, restoreConsole originalConsole body.2)

/-! ## A strict-mode JavaScript string-literal reader

`escapeJsString` output is interpolated between quotes of the generated
program, which Deno parses as a module — strict mode.  `readLiteral delim l`
reads a string-literal body from `l` up to an unescaped `delim`, decoding
escape sequences by the strict-mode grammar: the single escapes, `\\0` not
followed by a decimal digit, `\\xHH`, `\\uHHHH`, line continuations, and
identity escapes; `\\0` followed by a digit and `\\1`…`\\9` are legacy octal
forms and a SyntaxError in strict mode, and a raw line terminator ends no
literal — both return `none`.  (Escapes denoting surrogate halves and the
U+2028/U+2029 terminators cannot be represented in `Char` and are not
modelled; the escaper never produces them.) -/
def readLiteralF : Nat → Char → List Char → Option (List Char × List Char)
  | 0, _, _ => none
  | Nat.succ _, _, [] => none
  | Nat.succ fuel, delim, c :: rest =>
    if c = delim then some ([], rest)
    else if c = '\n' ∨ c = '\r' then none
    else if c = '\\' then
      match rest with
      | [] => none
      | e :: rest2 =>
        if e = 'n' then (readLiteralF fuel delim rest2).map fun r => ('\n' :: r.1, r.2)
        else if e = 'r' then (readLiteralF fuel delim rest2).map fun r => ('\r' :: r.1, r.2)
        else if e = 't' then (readLiteralF fuel delim rest2).map fun r => ('\t' :: r.1, r.2)
        else if e = 'b' then (readLiteralF fuel delim rest2).map fun r => ('\x08' :: r.1, r.2)
        else if e = 'v' then (readLiteralF fuel delim rest2).map fun r => ('\x0B' :: r.1, r.2)
        else if e = 'f' then (readLiteralF fuel delim rest2).map fun r => ('\x0C' :: r.1, r.2)
        else if e = '0' then
          match rest2 with
          | d :: _ =>
            if d.isDigit then none
            else (readLiteralF fuel delim rest2).map fun r => ('\x00' :: r.1, r.2)
          | [] => (readLiteralF fuel delim rest2).map fun r => ('\x00' :: r.1, r.2)
        else if e.isDigit then none
        else if e = 'x' then
          match rest2 with
          | h1 :: h2 :: rest3 =>
            (match hexVal h1, hexVal h2 with
             | some a, some b =>
               (readLiteralF fuel delim rest3).map fun r => (Char.ofNat (16 * a + b) :: r.1, r.2)
             | _, _ => none)
          | _ => none
        else if e = 'u' then
          match rest2 with
          | h1 :: h2 :: h3 :: h4 :: rest3 =>
            (match hexVal h1, hexVal h2, hexVal h3, hexVal h4 with
             | some a, some b, some c2, some d =>
               let v := ((a * 16 + b) * 16 + c2) * 16 + d
               if v.isValidChar then
                 (readLiteralF fuel delim rest3).map fun r => (Char.ofNat v :: r.1, r.2)
               else none
             | _, _, _, _ => none)
          | _ => none
        else if e = '\r' then
          match rest2 with
          | '\n' :: rest3 => readLiteralF fuel delim rest3
          | _ => readLiteralF fuel delim rest2
        else if e = '\n' then readLiteralF fuel delim rest2
        else (readLiteralF fuel delim rest2).map fun r => (e :: r.1, r.2)
    else (readLiteralF fuel delim rest).map fun r => (c :: r.1, r.2)

/-- The reader at adequate fuel (every step consumes at least one input
character, so `length + 1` never runs out). -/
def readLiteral (delim : Char) (l : List Char) : Option (List Char × List Char) :=
  readLiteralF (l.length + 1) delim l

/-- No null byte immediately followed by a decimal digit: the inputs on
which `\\0` in the escaper's output is a well-formed strict-mode escape. -/
def nulDigitFree : List Char → Bool
  | c :: d :: rest => !(c == '\x00' && d.isDigit) && nulDigitFree (d :: rest)
  | _ => true

end Thyme

namespace Thyme

/-! ### Theorems: UTF-8 round trip -/

theorem utf8Decode_nil : utf8Decode [] = [] := by
  rw [utf8Decode.eq_def]

theorem utf8Decode_cons (b : Nat) (bs : List Nat) (h : ¬ bs.length + 1 < utf8CharLen b) :
    utf8Decode (b :: bs) =
      utf8DecodeOne b (bs.take (utf8CharLen b - 1)) :: utf8Decode (bs.drop (utf8CharLen b - 1)) := by
  rw [utf8Decode.eq_def]
  simp only [if_neg h]

theorem utf8DecodeOne_one (b : Nat) (cont : List Nat) (h : b < 0x80) :
    utf8DecodeOne b cont = Char.ofNat b := by
  unfold utf8DecodeOne
  rw [if_pos h]

theorem utf8DecodeOne_two (b b1 : Nat) (t : List Nat) (h1 : ¬ b < 0x80) (h2 : b < 0xE0) :
    utf8DecodeOne b (b1 :: t) = Char.ofNat ((b - 0xC0) * 0x40 + (b1 - 0x80)) := by
  unfold utf8DecodeOne
  rw [if_neg h1, if_pos h2]

theorem utf8DecodeOne_three (b b1 b2 : Nat) (t : List Nat) (h1 : ¬ b < 0x80) (h2 : ¬ b < 0xE0)
    (h3 : b < 0xF0) :
    utf8DecodeOne b (b1 :: b2 :: t) =
      Char.ofNat ((b - 0xE0) * 0x1000 + (b1 - 0x80) * 0x40 + (b2 - 0x80)) := by
  unfold utf8DecodeOne
  rw [if_neg h1, if_neg h2, if_pos h3]

theorem utf8DecodeOne_four (b b1 b2 b3 : Nat) (t : List Nat) (h1 : ¬ b < 0x80) (h2 : ¬ b < 0xE0)
    (h3 : ¬ b < 0xF0) :
    utf8DecodeOne b (b1 :: b2 :: b3 :: t) =
      Char.ofNat ((b - 0xF0) * 0x40000 + (b1 - 0x80) * 0x1000 + (b2 - 0x80) * 0x40 + (b3 - 0x80)) := by
  unfold utf8DecodeOne
  rw [if_neg h1, if_neg h2, if_neg h3]

theorem char_toNat_lt (c : Char) : c.toNat < 0x110000 := by
  have hv := c.valid
  have he : c.toNat = c.val.toNat := rfl
  rcases hv with h | h
  · omega
  · omega

theorem utf8Decode_encodeChar (c : Char) (rest : List Nat) :
    utf8Decode (utf8EncodeChar c ++ rest) = c :: utf8Decode rest := by
  have hofnat := Char.ofNat_toNat c
  have hlt : c.toNat < 0x110000 := char_toNat_lt c
  unfold utf8EncodeChar
  rcases Nat.lt_or_ge c.toNat 0x80 with h1 | h1
  · rw [if_pos h1, List.cons_append, List.nil_append]
    have hlen : utf8CharLen c.toNat = 1 := by
      unfold utf8CharLen
      rw [if_pos h1]
    rw [utf8Decode_cons _ _ (by omega), hlen]
    simp only [Nat.sub_self, List.take_zero, List.drop_zero]
    rw [utf8DecodeOne_one _ _ h1, hofnat]
  · rcases Nat.lt_or_ge c.toNat 0x800 with h2 | h2
    · rw [if_neg (by omega), if_pos h2, List.cons_append, List.cons_append, List.nil_append]
      have hlen : utf8CharLen (0xC0 + c.toNat / 0x40) = 2 := by
        unfold utf8CharLen
        rw [if_neg (by omega), if_pos (by omega)]
      rw [utf8Decode_cons _ _ (by rw [hlen]; simp), hlen]
      simp only [List.take_succ_cons, List.take_zero, List.drop_succ_cons, List.drop_zero]
      rw [utf8DecodeOne_two _ _ _ (by omega) (by omega)]
      rw [show (0xC0 + c.toNat / 0x40 - 0xC0) * 0x40 + (0x80 + c.toNat % 0x40 - 0x80) = c.toNat by
        omega]
      rw [hofnat]
    · rcases Nat.lt_or_ge c.toNat 0x10000 with h3 | h3
      · rw [if_neg (by omega), if_neg (by omega), if_pos h3, List.cons_append, List.cons_append,
          List.cons_append, List.nil_append]
        have hlen : utf8CharLen (0xE0 + c.toNat / 0x1000) = 3 := by
          unfold utf8CharLen
          rw [if_neg (by omega), if_neg (by omega), if_pos (by omega)]
        rw [utf8Decode_cons _ _ (by rw [hlen]; simp), hlen]
        simp only [List.take_succ_cons, List.take_zero, List.drop_succ_cons, List.drop_zero]
        rw [utf8DecodeOne_three _ _ _ _ (by omega) (by omega) (by omega)]
        rw [show (0xE0 + c.toNat / 0x1000 - 0xE0) * 0x1000
            + (0x80 + c.toNat / 0x40 % 0x40 - 0x80) * 0x40 + (0x80 + c.toNat % 0x40 - 0x80)
            = c.toNat by omega]
        rw [hofnat]
      · rw [if_neg (by omega), if_neg (by omega), if_neg (by omega), List.cons_append,
          List.cons_append, List.cons_append, List.cons_append, List.nil_append]
        have hlen : utf8CharLen (0xF0 + c.toNat / 0x40000) = 4 := by
          unfold utf8CharLen
          rw [if_neg (by omega), if_neg (by omega), if_neg (by omega)]
        rw [utf8Decode_cons _ _ (by rw [hlen]; simp), hlen]
        simp only [List.take_succ_cons, List.take_zero, List.drop_succ_cons, List.drop_zero]
        rw [utf8DecodeOne_four _ _ _ _ _ (by omega) (by omega) (by omega)]
        rw [show (0xF0 + c.toNat / 0x40000 - 0xF0) * 0x40000
            + (0x80 + c.toNat / 0x1000 % 0x40 - 0x80) * 0x1000
            + (0x80 + c.toNat / 0x40 % 0x40 - 0x80) * 0x40 + (0x80 + c.toNat % 0x40 - 0x80)
            = c.toNat by omega]
        rw [hofnat]

theorem utf8Decode_flatMap (l : List Char) :
    utf8Decode (l.flatMap utf8EncodeChar) = l := by
  induction l with
  | nil => exact utf8Decode_nil
  | cons c cs ih => rw [List.flatMap_cons, utf8Decode_encodeChar, ih]

theorem strFromU8_strToU8 (s : String) : strFromU8 (strToU8 s) = s := by
  cases s with
  | mk data => rw [strFromU8, strToU8, utf8Decode_flatMap]

/-! ### Theorems: the container codec is lossless -/

theorem rleCons_nil (b : Nat) : rleCons b [] = [(1, b)] := rfl

theorem rleCons_cons (b n c : Nat) (rest : List (Nat × Nat)) :
    rleCons b ((n, c) :: rest) =
      if c = b then (n + 1, b) :: rest else (1, b) :: (n, c) :: rest := rfl

theorem rleDecode_cons (n c : Nat) (t : List (Nat × Nat)) :
    rleDecode ((n, c) :: t) = List.replicate n c ++ rleDecode t := rfl

theorem rleDecode_rleCons (b : Nat) (runs : List (Nat × Nat)) :
    rleDecode (rleCons b runs) = b :: rleDecode runs := by
  cases runs with
  | nil => rfl
  | cons r rest =>
    rcases r with ⟨n, c⟩
    rw [rleCons_cons]
    by_cases hc : c = b
    · rw [if_pos hc, rleDecode_cons, rleDecode_cons, hc, List.replicate_succ, List.cons_append]
    · rw [if_neg hc, rleDecode_cons, rleDecode_cons]
      rfl

theorem rleDecode_rleEncode (bs : List Nat) : rleDecode (rleEncode bs) = bs := by
  induction bs with
  | nil => rfl
  | cons b t ih => rw [rleEncode, rleDecode_rleCons, ih]

theorem rleEncode_replicate (n b : Nat) (h : 0 < n) :
    rleEncode (List.replicate n b) = [(n, b)] := by
  induction n with
  | zero => omega
  | succ k ih =>
    rcases Nat.eq_zero_or_pos k with hk | hk
    · subst hk
      rfl
    · rw [List.replicate_succ, rleEncode, ih hk, rleCons_cons, if_pos rfl]

theorem encodeRuns_cons (n c : Nat) (t : List (Nat × Nat)) :
    encodeRuns ((n, c) :: t) = n :: c :: encodeRuns t := rfl

theorem decodeRuns_encodeRuns (runs : List (Nat × Nat)) (rest : List Nat) :
    decodeRuns runs.length (encodeRuns runs ++ rest) = some (runs, rest) := by
  induction runs with
  | nil => rfl
  | cons r t ih =>
    rcases r with ⟨n, c⟩
    rw [encodeRuns_cons, List.length_cons, List.cons_append, List.cons_append]
    rw [decodeRuns, ih, Option.map_some']

theorem decodeEntry_encodeEntry (e : String × List Nat) (rest : List Nat) :
    decodeEntry (encodeEntry e ++ rest) =
      some ((strFromU8 (strToU8 e.1), rleDecode (rleEncode e.2)), rest) := by
  rw [encodeEntry]
  rw [show ((strToU8 e.1).length :: strToU8 e.1
        ++ ((rleEncode e.2).length :: encodeRuns (rleEncode e.2))) ++ rest
      = (strToU8 e.1).length :: (strToU8 e.1
        ++ (((rleEncode e.2).length :: encodeRuns (rleEncode e.2)) ++ rest)) by simp]
  rw [decodeEntry, if_pos (by simp)]
  rw [List.take_left' rfl, List.drop_left' rfl]
  rw [List.cons_append, decodeEntryTail, decodeRuns_encodeRuns, Option.map_some']

theorem decodeEntries_flatMap (es : List (String × List Nat)) (rest : List Nat) :
    decodeEntries es.length (es.flatMap encodeEntry ++ rest) = some (es, rest) := by
  induction es with
  | nil => rfl
  | cons e t ih =>
    rw [List.flatMap_cons, List.length_cons, List.append_assoc]
    rw [decodeEntries, decodeEntry_encodeEntry e (t.flatMap encodeEntry ++ rest)]
    rw [strFromU8_strToU8, rleDecode_rleEncode, Option.some_bind]
    rcases e with ⟨nm, content⟩
    rw [ih, Option.map_some']

theorem unzipSyncModel_zipSyncModel (files : List (String × List Nat)) :
    unzipSyncModel (zipSyncModel files) = Except.ok files := by
  rw [zipSyncModel, unzipSyncModel]
  have h := decodeEntries_flatMap files []
  rw [List.append_nil] at h
  rw [h]
  rfl

/-! ### Theorems: SHA-256 sanity and shape -/

theorem sha256Compress_length (hs block : List Nat) : (sha256Compress hs block).length = 8 := rfl

theorem foldl_sha256Compress_length (blocks : List (List Nat)) (hs : List Nat)
    (h : hs.length = 8) : (blocks.foldl sha256Compress hs).length = 8 := by
  induction blocks generalizing hs with
  | nil => exact h
  | cons b bs ih => exact ih _ (sha256Compress_length hs b)

theorem sha256Digest_length (msg : List Nat) : (sha256Digest msg).length = 8 :=
  foldl_sha256Compress_length _ _ rfl

theorem wordToHex_length (w : Nat) : (wordToHex w).length = 8 := by
  rw [wordToHex, List.length_map, List.length_range]

theorem sum_map_length_wordToHex (l : List Nat) :
    (List.map (List.length ∘ wordToHex) l).sum = 8 * l.length := by
  induction l with
  | nil => simp
  | cons x xs ih =>
    simp only [List.map_cons, List.sum_cons, Function.comp, wordToHex_length, ih,
      List.length_cons]
    ring

theorem sha256Hex_length (data : List Nat) : (sha256Hex data).length = 64 := by
  show ((sha256Digest data).flatMap wordToHex).length = 64
  rw [List.length_flatMap, sum_map_length_wordToHex, sha256Digest_length]

theorem sha256Hex_abc :
    sha256Hex (strToU8 "abc")
      = "ba7816bf8f01cfea414140de5dae2223b00361a396177a9cb410ff61f20015ad" := by
  decide

/-! ### Theorems: the secure archive pipeline (claims C3, C4, C5, C6) -/

theorem flatMap_replicate_single {a : Type} {b : Type} (n : Nat) (x : a) (f : a → List b)
    (y : b) (h : f x = [y]) : (List.replicate n x).flatMap f = List.replicate n y := by
  induction n with
  | zero => rfl
  | succ k ih =>
    rw [List.replicate_succ, List.flatMap_cons, h, ih, List.replicate_succ]
    rfl

theorem strToU8_bigSource : strToU8 bigSource = List.replicate 52428801 97 := by
  rw [bigSource, strToU8]
  exact flatMap_replicate_single _ _ _ _ (by decide)

theorem encodeRuns_length (runs : List (Nat × Nat)) :
    (encodeRuns runs).length = 2 * runs.length := by
  induction runs with
  | nil => rfl
  | cons r t ih =>
    rcases r with ⟨n, c⟩
    rw [encodeRuns_cons, List.length_cons, List.length_cons, ih, List.length_cons]
    ring

theorem encodeEntry_length (nm : String) (content : List Nat) :
    (encodeEntry (nm, content)).length = (strToU8 nm).length + 2 * (rleEncode content).length + 2 := by
  rw [encodeEntry]
  simp only [List.length_cons, List.length_append, encodeRuns_length]
  ring

theorem compressTask_zipBuffer (source bundle : String) :
    (compressTask source bundle).zipBuffer
      = zipSyncModel [("source.ts", strToU8 source), ("bundle.js", strToU8 bundle)] := rfl

/-- The two-entry container, written out: count, then the two entries. -/
theorem zipSyncModel_pair (s1 s2 : List Nat) :
    zipSyncModel [("source.ts", s1), ("bundle.js", s2)]
      = 2 :: (encodeEntry ("source.ts", s1) ++ encodeEntry ("bundle.js", s2)) := by
  rw [zipSyncModel]
  simp

theorem entries_sum_pair (s1 s2 : List Nat) :
    (([("source.ts", s1), ("bundle.js", s2)].map fun f => f.2.length)).sum
      = s1.length + s2.length := by
  simp

theorem zipSyncModel_single_length (nm : String) (content : List Nat) :
    (zipSyncModel [(nm, content)]).length = (encodeEntry (nm, content)).length + 1 := by
  rw [zipSyncModel]
  simp

theorem zipSyncModel_pair_length (s1 s2 : List Nat) :
    (zipSyncModel [("source.ts", s1), ("bundle.js", s2)]).length
      = (encodeEntry ("source.ts", s1)).length + (encodeEntry ("bundle.js", s2)).length + 1 := by
  rw [zipSyncModel]
  simp

theorem except_ok_bind {e a b : Type} (x : a) (f : a → Except e b) :
    (Except.ok x : Except e a).bind f = f x := rfl

/-- Claim C3, amended statement: the round trip returns the original pair for
every pair that fits inside both bomb-protection bounds (the compressed
container within `MAX_ZIP_SIZE`, the two texts' UTF-8 sizes within
`MAX_DECOMPRESSED_SIZE`); the counterexample `roundtrip_fails_beyond_bound`
shows the unrestricted claim is false. -/
theorem compress_decompress_roundtrip (source bundle : String)
    (h1 : (compressTask source bundle).zipBuffer.length ≤ MAX_ZIP_SIZE)
    (h2 : (strToU8 source).length + (strToU8 bundle).length ≤ MAX_DECOMPRESSED_SIZE) :
    decompressTask (compressTask source bundle).zipBuffer
      = Except.ok { source := source, bundle := bundle } := by
  rw [compressTask_zipBuffer] at h1 ⊢
  rw [decompressTask, decompressTaskWith, if_neg (by omega), unzipSyncModel_zipSyncModel]
  rw [except_ok_bind]
  rw [decompressStage2, entries_sum_pair, if_neg (by omega)]
  rw [checkEntries]
  rw [show (List.lookup "source.ts"
        [("source.ts", strToU8 source), ("bundle.js", strToU8 bundle)]) = some (strToU8 source)
      from rfl]
  rw [show (List.lookup "bundle.js"
        [("source.ts", strToU8 source), ("bundle.js", strToU8 bundle)]) = some (strToU8 bundle)
      from rfl]
  simp only [Option.isNone_some, Bool.false_eq_true, if_false, Option.getD_some]
  rw [strFromU8_strToU8, strFromU8_strToU8]

theorem compress_small_fits :
    (compressTask "const x=1;" "var x=1;").zipBuffer.length ≤ MAX_ZIP_SIZE := by
  rw [compressTask_zipBuffer, zipSyncModel_pair, List.length_cons, List.length_append,
    encodeEntry_length, encodeEntry_length]
  decide

/-- Witness for C3's amended round trip, at the spec's own example pair. -/
theorem compress_decompress_roundtrip_witness :
    (compressTask "const x=1;" "var x=1;").zipBuffer.length ≤ MAX_ZIP_SIZE
      ∧ (strToU8 "const x=1;").length + (strToU8 "var x=1;").length ≤ MAX_DECOMPRESSED_SIZE
      ∧ decompressTask (compressTask "const x=1;" "var x=1;").zipBuffer
          = Except.ok { source := "const x=1;", bundle := "var x=1;" } :=
  ⟨compress_small_fits, by decide,
   compress_decompress_roundtrip _ _ compress_small_fits (by decide)⟩

/-- Claim C3, counterexample: for a 50 MB + 1 source text the round trip does
not return the pair — the stage-2 bound rejects the container instead. -/
theorem roundtrip_fails_beyond_bound :
    decompressTask (compressTask bigSource "").zipBuffer
      ≠ Except.ok { source := bigSource, bundle := "" } := by
  have hz : (compressTask bigSource "").zipBuffer
      = zipSyncModel [("source.ts", List.replicate 52428801 97), ("bundle.js", [])] := by
    rw [compressTask_zipBuffer, strToU8_bigSource]
    rfl
  have hr : rleEncode (List.replicate 52428801 97) = [(52428801, 97)] :=
    rleEncode_replicate _ _ (by norm_num)
  have hn1 : (strToU8 "source.ts").length = 9 := by decide
  have hn2 : (strToU8 "bundle.js").length = 9 := by decide
  have hlen : (zipSyncModel [("source.ts", List.replicate 52428801 97), ("bundle.js", [])]).length
      = 25 := by
    rw [zipSyncModel_pair_length, encodeEntry_length, encodeEntry_length, hr, hn1, hn2,
      show rleEncode ([] : List Nat) = [] from rfl]
    norm_num
  rw [hz, decompressTask, decompressTaskWith, if_neg (by rw [hlen]; decide)]
  rw [unzipSyncModel_zipSyncModel, except_ok_bind]
  rw [decompressStage2, entries_sum_pair]
  rw [if_pos (by rw [List.length_replicate]; norm_num [MAX_DECOMPRESSED_SIZE])]
  exact fun hcontra => Except.noConfusion hcontra

/-- Claim C4: any input longer than `MAX_ZIP_SIZE` is rejected with the
stage-1 size error, whatever the decompression routine is — the result does
not depend on it, which is the embedding of "decompression is not attempted
on that branch". -/
theorem decompressTask_stage1_guard
    (unzip : List Nat → Except String (List (String × List Nat)))
    (buf : List Nat) (h : buf.length > MAX_ZIP_SIZE) :
    decompressTaskWith unzip buf
      = Except.error ("ZIP file too large: " ++ toString buf.length
          ++ " bytes (max: " ++ toString MAX_ZIP_SIZE ++ ")") := by
  rw [decompressTaskWith, if_pos h]

/-- Witness for C4 at a concrete 10 MB + 1 input, with the source's own
decompression routine model. -/
theorem decompressTask_stage1_guard_witness :
    (List.replicate 10485761 (0 : Nat)).length > MAX_ZIP_SIZE
      ∧ decompressTaskWith unzipSyncModel (List.replicate 10485761 (0 : Nat))
          = Except.error ("ZIP file too large: "
              ++ toString (List.replicate 10485761 (0 : Nat)).length
              ++ " bytes (max: " ++ toString MAX_ZIP_SIZE ++ ")") :=
  ⟨by rw [List.length_replicate]; decide,
   decompressTask_stage1_guard unzipSyncModel _ (by rw [List.length_replicate]; decide)⟩

/-- Claim C5: a container that passes the stage-1 compressed-size check but
whose decompressed entries sum beyond `MAX_DECOMPRESSED_SIZE` is rejected
with the stage-2 error. -/
theorem decompressTask_stage2_guard (buf : List Nat) (entries : List (String × List Nat))
    (h1 : ¬ buf.length > MAX_ZIP_SIZE)
    (h2 : unzipSyncModel buf = Except.ok entries)
    (h3 : (entries.map fun f => f.2.length).sum > MAX_DECOMPRESSED_SIZE) :
    decompressTask buf
      = Except.error ("Decompressed content too large: "
          ++ toString (entries.map fun f => f.2.length).sum
          ++ " bytes (max: " ++ toString MAX_DECOMPRESSED_SIZE ++ ")") := by
  rw [decompressTask, decompressTaskWith, if_neg h1, h2, except_ok_bind]
  rw [decompressStage2, if_pos h3]

theorem bombBuf_length : bombBuf.length = 14 := by
  have hr : rleEncode (List.replicate 52428801 97) = [(52428801, 97)] :=
    rleEncode_replicate _ _ (by norm_num)
  have hn1 : (strToU8 "source.ts").length = 9 := by decide
  rw [bombBuf, zipSyncModel_single_length, encodeEntry_length, hr, hn1]
  norm_num

theorem bombBuf_unzip :
    unzipSyncModel bombBuf = Except.ok [("source.ts", List.replicate 52428801 97)] :=
  unzipSyncModel_zipSyncModel _

theorem bombBuf_sum :
    (([("source.ts", List.replicate 52428801 97)].map fun f => f.2.length)).sum = 52428801 := by
  simp only [List.map_cons, List.map_nil, List.sum_cons, List.sum_nil, List.length_replicate]
  omega

/-- Witness for C5: `bombBuf` is 15 elements compressed but decompresses to a
single 50 MB + 1 entry, and `decompressTask` rejects it at stage 2. -/
theorem decompressTask_stage2_guard_witness :
    ¬ bombBuf.length > MAX_ZIP_SIZE
      ∧ unzipSyncModel bombBuf = Except.ok [("source.ts", List.replicate 52428801 97)]
      ∧ (([("source.ts", List.replicate 52428801 97)].map fun f => f.2.length)).sum
          > MAX_DECOMPRESSED_SIZE
      ∧ decompressTask bombBuf
          = Except.error ("Decompressed content too large: "
              ++ toString (([("source.ts", List.replicate 52428801 97)].map
                    fun f => f.2.length)).sum
              ++ " bytes (max: " ++ toString MAX_DECOMPRESSED_SIZE ++ ")") :=
  ⟨by rw [bombBuf_length]; norm_num [MAX_ZIP_SIZE],
   bombBuf_unzip,
   by rw [bombBuf_sum]; norm_num [MAX_DECOMPRESSED_SIZE],
   decompressTask_stage2_guard bombBuf _ (by rw [bombBuf_length]; norm_num [MAX_ZIP_SIZE])
     bombBuf_unzip (by rw [bombBuf_sum]; norm_num [MAX_DECOMPRESSED_SIZE])⟩

/-- Claim C6: the checksum of `compressTask` is the hex SHA-256 digest of the
compressed bytes (64 lower-case hex characters), it is a function of the
compressed bytes alone (determinism), and it differs from the superseded
rolling hash `simpleChecksum`. -/
theorem compressTask_checksum_sha256 (source bundle : String) :
    (compressTask source bundle).checksum = sha256Hex (compressTask source bundle).zipBuffer
      ∧ (compressTask source bundle).checksum.length = 64
      ∧ (∀ s2 b2 : String,
          (compressTask s2 b2).zipBuffer = (compressTask source bundle).zipBuffer →
            (compressTask s2 b2).checksum = (compressTask source bundle).checksum)
      ∧ ∃ data : List Nat, sha256Hex data ≠ simpleChecksum data := by
  refine ⟨rfl, sha256Hex_length _, ?_, ⟨[], ?_⟩⟩
  · intro s2 b2 h
    show sha256Hex (compressTask s2 b2).zipBuffer = sha256Hex (compressTask source bundle).zipBuffer
    rw [h]
  · intro hcontra
    have hlen1 : (sha256Hex []).length = 64 := sha256Hex_length []
    have hsc : simpleChecksum [] = "0" := by decide
    rw [hcontra, hsc] at hlen1
    exact absurd hlen1 (by decide)

/-- Witness for C6, discharging the determinism hypothesis at a concrete
input. -/
theorem compressTask_checksum_sha256_witness :
    (compressTask "a" "b").checksum = sha256Hex (compressTask "a" "b").zipBuffer
      ∧ (compressTask "a" "b").checksum = (compressTask "a" "b").checksum :=
  ⟨(compressTask_checksum_sha256 "a" "b").1,
   (compressTask_checksum_sha256 "a" "b").2.2.1 "a" "b" rfl⟩

/-! ### Theorems: the close handler and the launcher (claims C1, C7, C8, C10) -/

theorem decodeResult_scan_none (jp : String → Except String Json) (st : Option String)
    (lg : List String) :
    decodeResult jp { resultLine := none, statsLine := st, logs := lg }
      = failParse lg "No result found in output" := rfl

theorem decodeResult_scan_some (jp : String → Except String Json) (rl : String)
    (st : Option String) (lg : List String) :
    decodeResult jp { resultLine := some rl, statsLine := st, logs := lg }
      = (match jp rl with
         | Except.error m => failParse lg m
         | Except.ok result => decodeStats jp result lg st) := rfl

theorem classifyLine_not_result (acc : LineScan) (line : String)
    (h : RESULT_MARKER.data.isPrefixOf line.data = false) :
    (classifyLine acc line).resultLine = acc.resultLine := by
  rw [classifyLine, if_neg (by simp [h])]
  by_cases h2 : STATS_MARKER.data.isPrefixOf line.data
  · rw [if_pos (by simp [h2])]
  · rw [if_neg (by simp [h2])]
    by_cases h3 : (jsTrim line.data).isEmpty
    · rw [if_pos (by simp [h3])]
    · rw [if_neg (by simp [h3])]

theorem classifyLine_result (acc : LineScan) (line : String)
    (h : RESULT_MARKER.data.isPrefixOf line.data = true) :
    (classifyLine acc line).resultLine = some (String.mk (line.data.drop 16)) := by
  rw [classifyLine, if_pos (by simp [h])]

theorem foldl_classify_result_none (lines : List String) (acc : LineScan)
    (hacc : acc.resultLine = none)
    (h : ∀ l ∈ lines, RESULT_MARKER.data.isPrefixOf l.data = false) :
    (lines.foldl classifyLine acc).resultLine = none := by
  induction lines generalizing acc with
  | nil => exact hacc
  | cons l ls ih =>
    rw [List.foldl_cons]
    refine ih _ ?_ fun x hx => h x (by simp [hx])
    rw [classifyLine_not_result _ _ (h l (by simp))]
    exact hacc

theorem sanitize_no_result_msg :
    sanitizeErrorMessage ("Failed to parse result: " ++ "No result found in output")
      = "Failed to parse result: No result found in output" := by
  decide

/-- Claim C7, amended: when no captured stdout line starts with the result
marker, the exit-code-0 path resolves `success: false` with the error string
`Failed to parse result: No result found in output` — the thrown message
`No result found in output`, wrapped by the result-parsing `catch` (the
claim's unprefixed error string is refuted by `no_result_error_prefixed`). -/
theorem handleClose_no_result_marker (jp : String → Except String Json) (stdout stderr : String)
    (h : ∀ l ∈ stdoutLines stdout, RESULT_MARKER.data.isPrefixOf l.data = false) :
    handleClose jp 0 stdout stderr
      = { success := false, logs := (classifyLines (stdoutLines stdout)).logs,
          error := some "Failed to parse result: No result found in output" } := by
  have hrl : (classifyLines (stdoutLines stdout)).resultLine = none :=
    foldl_classify_result_none _ _ rfl h
  rw [handleClose, if_neg (by decide)]
  rcases hscan : classifyLines (stdoutLines stdout) with ⟨orl, st, lg⟩
  rw [hscan] at hrl
  have horl : orl = none := hrl
  subst horl
  rw [decodeResult_scan_none, failParse, sanitize_no_result_msg]

/-- Witness for C7 at a concrete marker-free stdout. -/
theorem handleClose_no_result_marker_witness :
    (∀ l ∈ stdoutLines "hello", RESULT_MARKER.data.isPrefixOf l.data = false)
      ∧ handleClose jsonParseModel 0 "hello" ""
          = { success := false, logs := (classifyLines (stdoutLines "hello")).logs,
              error := some "Failed to parse result: No result found in output" } :=
  ⟨by decide, handleClose_no_result_marker jsonParseModel "hello" "" (by decide)⟩

/-- Claim C7, counterexample: the claim's error string is not the returned
one — the code wraps the thrown message in `Failed to parse result: `. -/
theorem no_result_error_prefixed :
    (handleClose jsonParseModel 0 "hello" "").error ≠ some "No result found in output"
      ∧ (handleClose jsonParseModel 0 "hello" "").error
          = some "Failed to parse result: No result found in output"
      ∧ (handleClose jsonParseModel 0 "hello" "").success = false := by
  refine ⟨by decide, by decide, by decide⟩

theorem foldl_classify_result_last (lines : List String) (acc : LineScan) :
    (lines.foldl classifyLine acc).resultLine
      = Option.getD
          (Option.map (fun l => some (String.mk (l.data.drop 16)))
            ((lines.filter fun l => RESULT_MARKER.data.isPrefixOf l.data).getLast?))
          acc.resultLine := by
  induction lines generalizing acc with
  | nil => rfl
  | cons l ls ih =>
    rw [List.foldl_cons, ih]
    by_cases h : RESULT_MARKER.data.isPrefixOf l.data
    · rw [List.filter_cons_of_pos (by simpa using h), classifyLine_result _ _ (by simpa using h)]
      cases hfilter : ls.filter (fun l => RESULT_MARKER.data.isPrefixOf l.data) with
      | nil => rfl
      | cons x xs =>
        rw [List.getLast?_cons_cons]
        cases hl : (x :: xs).getLast? with
        | none => exact absurd (List.getLast?_eq_none_iff.mp hl) (by simp)
        | some y => rfl
    · rw [List.filter_cons_of_neg (by simpa using h),
        classifyLine_not_result _ _ (by simp only [Bool.not_eq_true] at h; exact h)]

theorem decodeResult_result_cases (jp : String → Except String Json) (scan : LineScan)
    (rl : String) (h : scan.resultLine = some rl) :
    (decodeResult jp scan).result = none ∨ (decodeResult jp scan).result = (jp rl).toOption := by
  rcases scan with ⟨orl, st, lg⟩
  have horl : orl = some rl := h
  subst horl
  rw [decodeResult_scan_some]
  cases hjp : jp rl with
  | error m => exact Or.inl rfl
  | ok v =>
    cases st with
    | none => exact Or.inr rfl
    | some sl =>
      show ((decodeStats jp v lg (some sl)).result = none
          ∨ (decodeStats jp v lg (some sl)).result = (Except.ok (ε := String) v).toOption)
      rw [show decodeStats jp v lg (some sl)
          = (match jp sl with
             | Except.error m => failParse lg m
             | Except.ok stats => finishStats v lg stats) from rfl]
      cases hsl : jp sl with
      | error m => exact Or.inl rfl
      | ok stats =>
        show ((finishStats v lg stats).result = none
            ∨ (finishStats v lg stats).result = (Except.ok (ε := String) v).toOption)
        rw [show finishStats v lg stats
            = (match statsFields stats with
               | Except.error m => failParse lg m
               | Except.ok t =>
                 { success := true, result := some v, logs := lg, executionTime := t.1,
                   memoryUsed := t.2.1, rpcRequestCount := t.2.2 }) from rfl]
        cases hsf : statsFields stats with
        | error m => exact Or.inl rfl
        | ok t => exact Or.inr rfl

/-- Claim C8, amended: when several captured lines start with the result
marker, the decoded outcome the launcher can return comes from the last such
line — each later marker line overwrites `resultLine` in the classification
loop — never from the first (refuted at a concrete input by
`result_marker_first_does_not_win`). -/
theorem handleClose_last_marker_wins (jp : String → Except String Json)
    (stdout stderr p : String)
    (h : ((stdoutLines stdout).filter fun l => RESULT_MARKER.data.isPrefixOf l.data).getLast?
        = some p) :
    (handleClose jp 0 stdout stderr).result = none
      ∨ (handleClose jp 0 stdout stderr).result
          = (jp (String.mk (p.data.drop 16))).toOption := by
  have hrl : (classifyLines (stdoutLines stdout)).resultLine
      = some (String.mk (p.data.drop 16)) := by
    rw [classifyLines, foldl_classify_result_last, h]
    rfl
  rw [handleClose, if_neg (by decide)]
  exact decodeResult_result_cases jp _ _ hrl

/-- Witness for C8: two result lines, distinct payloads; the promise's
decoded outcome is the second line's payload. -/
theorem handleClose_last_marker_wins_witness :
    (((stdoutLines "__THYME_RESULT__true\n__THYME_RESULT__false").filter
        fun l => RESULT_MARKER.data.isPrefixOf l.data).getLast? = some "__THYME_RESULT__false")
      ∧ ((handleClose jsonParseModel 0 "__THYME_RESULT__true\n__THYME_RESULT__false" "").result
            = none
          ∨ (handleClose jsonParseModel 0 "__THYME_RESULT__true\n__THYME_RESULT__false" "").result
              = (jsonParseModel (String.mk ("__THYME_RESULT__false".data.drop 16))).toOption) :=
  ⟨by decide,
   handleClose_last_marker_wins jsonParseModel _ "" "__THYME_RESULT__false" (by decide)⟩

/-- Claim C8, counterexample: with two result lines `true` then `false`, the
decoded outcome is `false` — the last line, not the first. -/
theorem result_marker_first_does_not_win :
    jsonParseModel "true" = Except.ok (Json.bool true)
      ∧ jsonParseModel "false" = Except.ok (Json.bool false)
      ∧ (handleClose jsonParseModel 0 "__THYME_RESULT__true\n__THYME_RESULT__false" "").result
          = some (Json.bool false)
      ∧ (some (Json.bool false) : Option Json) ≠ some (Json.bool true) := by
  refine ⟨rfl, rfl, rfl, by simp⟩

/-- Claim C1 (code bug): nothing observable about a launch depends on
`config.timeout` — the capability flags, the generated program and the
outcome handling are all unchanged under any change of the timeout, so the
configured timeout is never enforced. -/
theorem runInDeno_ignores_timeout (jp : String → Except String Json)
    (taskDir absoluteTaskPath argsJson : String) (config : TaskConfig) (t : Nat) :
    runInDenoModel jp taskDir absoluteTaskPath argsJson { config with timeout := t }
      = runInDenoModel jp taskDir absoluteTaskPath argsJson config := by
  cases config
  rfl

theorem finishStats_failure (v : Json) (lg : List String) (stats : Json) :
    (finishStats v lg stats).success = false →
      ∃ m, (finishStats v lg stats).error = some (sanitizeErrorMessage m) := by
  rw [show finishStats v lg stats
      = (match statsFields stats with
         | Except.error m => failParse lg m
         | Except.ok t =>
           { success := true, result := some v, logs := lg, executionTime := t.1,
             memoryUsed := t.2.1, rpcRequestCount := t.2.2 }) from rfl]
  cases hsf : statsFields stats with
  | error m => exact fun _ => ⟨"Failed to parse result: " ++ m, rfl⟩
  | ok t => exact fun hfalse => absurd hfalse (by simp)

theorem decodeStats_failure (jp : String → Except String Json) (v : Json) (lg : List String)
    (st : Option String) :
    (decodeStats jp v lg st).success = false →
      ∃ m, (decodeStats jp v lg st).error = some (sanitizeErrorMessage m) := by
  cases st with
  | none => exact fun hfalse => absurd hfalse (by simp [decodeStats])
  | some sl =>
    rw [show decodeStats jp v lg (some sl)
        = (match jp sl with
           | Except.error m => failParse lg m
           | Except.ok stats => finishStats v lg stats) from rfl]
    cases hsl : jp sl with
    | error m => exact fun _ => ⟨"Failed to parse result: " ++ m, rfl⟩
    | ok stats => exact finishStats_failure v lg stats

/-- Claim C10: the `runInDeno` promise value is a total function of the
process outcome — a failed spawn and a non-zero exit resolve to the exact
sanitized failure results, and every `success = false` result carries an
error that went through `sanitizeErrorMessage`. -/
theorem runInDeno_always_resolves (jp : String → Except String Json) (outcome : ProcOutcome) :
    (∀ m, outcome = ProcOutcome.spawnError m →
        runInDenoResult jp outcome
          = { success := false, logs := [],
              error := some (sanitizeErrorMessage ("Failed to spawn Deno: " ++ m)) })
      ∧ (∀ code stdout stderr, outcome = ProcOutcome.exited code stdout stderr → code ≠ 0 →
          runInDenoResult jp outcome
            = { success := false, logs := [],
                error := some (sanitizeErrorMessage
                  (if stderr = "" then "Process exited with code " ++ toString code
                   else stderr)) })
      ∧ ((runInDenoResult jp outcome).success = false →
          ∃ m, (runInDenoResult jp outcome).error = some (sanitizeErrorMessage m)) := by
  refine ⟨?_, ?_, ?_⟩
  · intro m hm
    subst hm
    rfl
  · intro code stdout stderr ho hc
    subst ho
    show handleClose jp code stdout stderr = _
    rw [handleClose, if_pos hc]
  · cases outcome with
    | spawnError m => exact fun _ => ⟨"Failed to spawn Deno: " ++ m, rfl⟩
    | exited code stdout stderr =>
      have hrid : runInDenoResult jp (ProcOutcome.exited code stdout stderr)
          = handleClose jp code stdout stderr := rfl
      rw [hrid, handleClose]
      by_cases hc : code ≠ 0
      · rw [if_pos hc]
        exact fun _ =>
          ⟨if stderr = "" then "Process exited with code " ++ toString code else stderr, rfl⟩
      · rw [if_neg hc]
        rcases hscan : classifyLines (stdoutLines stdout) with ⟨orl, st, lg⟩
        cases orl with
        | none => exact fun _ => ⟨"Failed to parse result: " ++ "No result found in output", rfl⟩
        | some rl =>
          rw [decodeResult_scan_some]
          cases hjp : jp rl with
          | error m => exact fun _ => ⟨"Failed to parse result: " ++ m, rfl⟩
          | ok v => exact decodeStats_failure jp v lg st

/-- Witness for C10: the three failure families at concrete inputs — a spawn
error, exit code 1, and exit code 0 with a malformed result payload. -/
theorem runInDeno_always_resolves_witness :
    runInDenoResult jsonParseModel (ProcOutcome.spawnError "boom")
        = { success := false, logs := [],
            error := some (sanitizeErrorMessage ("Failed to spawn Deno: " ++ "boom")) }
      ∧ runInDenoResult jsonParseModel (ProcOutcome.exited 1 "" "oops")
          = { success := false, logs := [],
              error := some (sanitizeErrorMessage
                (if "oops" = "" then "Process exited with code " ++ toString (1 : Int)
                 else "oops")) }
      ∧ ∃ m, (runInDenoResult jsonParseModel
            (ProcOutcome.exited 0 "__THYME_RESULT__\x7b" "")).error
          = some (sanitizeErrorMessage m) :=
  ⟨(runInDeno_always_resolves jsonParseModel (ProcOutcome.spawnError "boom")).1 "boom" rfl,
   (runInDeno_always_resolves jsonParseModel (ProcOutcome.exited 1 "" "oops")).2.1
     1 "" "oops" rfl (by decide),
   (runInDeno_always_resolves jsonParseModel
     (ProcOutcome.exited 0 "__THYME_RESULT__\x7b" "")).2.2 (by decide)⟩

/-! ### Theorems: the in-process capture sandbox (claim C2) -/

theorem sandboxModel_console_restored {C E T : Type} (patched : C) (emptyEnv : E)
    (sc : SandboxScenario T) (h0 : SandboxHost C E) :
    (sandboxModel patched emptyEnv sc h0).2.console = h0.console := by
  rcases sc with ⟨we, ie, ms, rb, uf⟩
  cases we with
  | some m => rfl
  | none => rfl

theorem sandboxModel_env_stays_hidden {C E T : Type} (patched : C) (emptyEnv : E)
    (sc : SandboxScenario T) (h0 : SandboxHost C E) (hw : sc.writeError = none) :
    (sandboxModel patched emptyEnv sc h0).2.env = emptyEnv := by
  rcases sc with ⟨we, ie, ms, rb, uf⟩
  have : we = none := hw
  subst this
  show (restoreConsole h0.console
      (sandboxTry h0.console patched emptyEnv ⟨none, ie, ms, rb, uf⟩ h0).2).env = emptyEnv
  rw [restoreConsole]
  cases ie with
  | some m => rfl
  | none =>
    cases ms with
    | noDefault => rfl
    | noRun => rfl
    | ok =>
      cases rb with
      | raises m => rfl
      | succeeds r => rfl

/-- Claim C2 (code bug): at a concrete run that completes normally — with
the transient-file deletion even failing — the console is restored to its
original value, but `process.env` is left as the empty view: the source
saves nothing before `hideProcessEnv` and its `finally` only runs
`restoreConsole`, so the pre-call environment (here `2`) is unrecoverable
and the final environment is the empty view (`0`). -/
theorem sandbox_env_not_restored :
    (sandboxModel (C := Nat) (E := Nat) (T := Bool) 5 0
        { writeError := none, importError := none, moduleShape := ModuleShape.ok,
          runBehavior := RunBehavior.succeeds true, unlinkFails := true }
        { console := 1, env := 2 }).2.console = 1
      ∧ (sandboxModel (C := Nat) (E := Nat) (T := Bool) 5 0
          { writeError := none, importError := none, moduleShape := ModuleShape.ok,
            runBehavior := RunBehavior.succeeds true, unlinkFails := true }
          { console := 1, env := 2 }).2.env = 0
      ∧ (0 : Nat) ≠ 2 :=
  ⟨rfl, rfl, by decide⟩

/-! ### Theorems: `escapeJsString` and the string-literal reader (claim C9) -/

theorem replaceChar_append (t : Char) (r : List Char) (x y : List Char) :
    replaceChar t r (x ++ y) = replaceChar t r x ++ replaceChar t r y := by
  rw [replaceChar, replaceChar, replaceChar, List.flatMap_append]

theorem escapeChain_append (x y : List Char) :
    escapeChain (x ++ y) = escapeChain x ++ escapeChain y := by
  simp only [escapeChain, replaceChar_append]

theorem escapeChain_singleton (c : Char) : escapeChain [c] = escChar c := by
  by_cases h1 : c = '\\'
  · subst h1; rfl
  · by_cases h2 : c = '\''
    · subst h2; rfl
    · by_cases h3 : c = '"'
      · subst h3; rfl
      · by_cases h4 : c = '\n'
        · subst h4; rfl
        · by_cases h5 : c = '\r'
          · subst h5; rfl
          · by_cases h6 : c = '\t'
            · subst h6; rfl
            · by_cases h7 : c = '\x00'
              · subst h7; rfl
              · rw [show escChar c = [c] by
                    rw [escChar, if_neg h1, if_neg h2, if_neg h3, if_neg h4, if_neg h5,
                      if_neg h6, if_neg h7]]
                simp [escapeChain, replaceChar, h1, h2, h3, h4, h5, h6, h7]

theorem escapeChain_eq_flatMap (l : List Char) : escapeChain l = l.flatMap escChar := by
  induction l with
  | nil => rfl
  | cons c t ih =>
    rw [show c :: t = [c] ++ t from rfl, escapeChain_append, List.flatMap_append,
      escapeChain_singleton, ih]
    rw [show ([c]).flatMap escChar = escChar c ++ [].flatMap escChar from rfl]
    rw [List.flatMap_nil, List.append_nil]

theorem escapeJsString_data (s : String) :
    (escapeJsString s).data = s.data.flatMap escChar := by
  rw [escapeJsString]
  rw [show (String.mk (escapeChain s.data)).data = escapeChain s.data from rfl]
  rw [escapeChain_eq_flatMap]

theorem escChar_cases (c : Char) : escChar c = [c] ∨ ∃ e, escChar c = ['\\', e] := by
  rw [escChar]
  split_ifs
  · exact Or.inr ⟨'\\', rfl⟩
  · exact Or.inr ⟨'\'', rfl⟩
  · exact Or.inr ⟨'"', rfl⟩
  · exact Or.inr ⟨'n', rfl⟩
  · exact Or.inr ⟨'r', rfl⟩
  · exact Or.inr ⟨'t', rfl⟩
  · exact Or.inr ⟨'0', rfl⟩
  · exact Or.inl rfl

theorem escChar_length_pos (c : Char) : 1 ≤ (escChar c).length := by
  rcases escChar_cases c with h | ⟨e, h⟩ <;> rw [h] <;> simp

theorem nulDigitFree_tail (c : Char) (t : List Char) (h : nulDigitFree (c :: t) = true) :
    nulDigitFree t = true := by
  cases t with
  | nil => rfl
  | cons d r =>
    rw [nulDigitFree, Bool.and_eq_true] at h
    exact h.2

theorem nulDigitFree_nul_cons (d : Char) (r : List Char)
    (h : nulDigitFree ('\x00' :: d :: r) = true) : d.isDigit = false := by
  rw [nulDigitFree, Bool.and_eq_true] at h
  have h1 := h.1
  simp only [Bool.not_eq_true'] at h1
  simpa using h1

theorem escList_cons_head (tail : List Char) (delim : Char) (rest : List Char)
    (hd : delim = '\'' ∨ delim = '"')
    (hhead : ∀ d r2, tail = d :: r2 → d.isDigit = false) :
    ∃ d r2, (tail.flatMap escChar) ++ delim :: rest = d :: r2 ∧ d.isDigit = false := by
  cases tail with
  | nil =>
    refine ⟨delim, rest, rfl, ?_⟩
    rcases hd with h | h <;> subst h <;> decide
  | cons c2 t2 =>
    rw [List.flatMap_cons, List.append_assoc]
    rcases escChar_cases c2 with h | ⟨e, h⟩
    · rw [h]
      exact ⟨c2, _, rfl, hhead c2 t2 rfl⟩
    · rw [h]
      exact ⟨'\\', _, rfl, by decide⟩

theorem rl_delim (fuel : Nat) (delim : Char) (rest : List Char) :
    readLiteralF (Nat.succ fuel) delim (delim :: rest) = some ([], rest) := by
  simp only [readLiteralF, if_true]

theorem rl_plain (fuel : Nat) (delim c : Char) (rest : List Char)
    (h1 : ¬ c = delim) (h2 : ¬ (c = '\n' ∨ c = '\r')) (h3 : ¬ c = '\\') :
    readLiteralF (Nat.succ fuel) delim (c :: rest)
      = (readLiteralF fuel delim rest).map fun r => (c :: r.1, r.2) := by
  simp only [readLiteralF, if_neg h1, if_neg h2, if_neg h3]

theorem rl_esc_n (fuel : Nat) (delim : Char) (rest2 : List Char)
    (hbd : ¬ ('\\' : Char) = delim) :
    readLiteralF (Nat.succ fuel) delim ('\\' :: 'n' :: rest2)
      = (readLiteralF fuel delim rest2).map fun r => ('\n' :: r.1, r.2) := by
  have hl : ¬ (('\\' : Char) = '\n' ∨ ('\\' : Char) = '\r') := by decide
  simp only [readLiteralF, if_neg hbd, if_neg hl, if_true]

theorem rl_esc_r (fuel : Nat) (delim : Char) (rest2 : List Char)
    (hbd : ¬ ('\\' : Char) = delim) :
    readLiteralF (Nat.succ fuel) delim ('\\' :: 'r' :: rest2)
      = (readLiteralF fuel delim rest2).map fun r => ('\r' :: r.1, r.2) := by
  have hl : ¬ (('\\' : Char) = '\n' ∨ ('\\' : Char) = '\r') := by decide
  have e1 : ¬ ('r' : Char) = 'n' := by decide
  simp only [readLiteralF, if_neg hbd, if_neg hl, if_neg e1, if_true]

theorem rl_esc_t (fuel : Nat) (delim : Char) (rest2 : List Char)
    (hbd : ¬ ('\\' : Char) = delim) :
    readLiteralF (Nat.succ fuel) delim ('\\' :: 't' :: rest2)
      = (readLiteralF fuel delim rest2).map fun r => ('\t' :: r.1, r.2) := by
  have hl : ¬ (('\\' : Char) = '\n' ∨ ('\\' : Char) = '\r') := by decide
  have e1 : ¬ ('t' : Char) = 'n' := by decide
  have e2 : ¬ ('t' : Char) = 'r' := by decide
  simp only [readLiteralF, if_neg hbd, if_neg hl, if_neg e1, if_neg e2, if_true]

theorem rl_esc_ident (fuel : Nat) (delim e : Char) (rest2 : List Char)
    (hbd : ¬ ('\\' : Char) = delim)
    (hn : ¬ e = 'n') (hr : ¬ e = 'r') (ht : ¬ e = 't') (hb : ¬ e = 'b') (hv : ¬ e = 'v')
    (hf : ¬ e = 'f') (h0 : ¬ e = '0') (hdig : e.isDigit = false) (hx : ¬ e = 'x')
    (hu : ¬ e = 'u') (hcr : ¬ e = '\r') (hnl : ¬ e = '\n') :
    readLiteralF (Nat.succ fuel) delim ('\\' :: e :: rest2)
      = (readLiteralF fuel delim rest2).map fun r => (e :: r.1, r.2) := by
  have hl : ¬ (('\\' : Char) = '\n' ∨ ('\\' : Char) = '\r') := by decide
  simp only [readLiteralF, if_neg hbd, if_neg hl, if_neg hn, if_neg hr, if_neg ht,
    if_neg hb, if_neg hv, if_neg hf, if_neg h0, hdig, if_neg hx, if_neg hu,
    if_neg hcr, if_neg hnl, Bool.false_eq_true, if_false, if_true]

theorem rl_esc_nul (fuel : Nat) (delim d : Char) (r2 : List Char)
    (hbd : ¬ ('\\' : Char) = delim) (hdig : d.isDigit = false) :
    readLiteralF (Nat.succ fuel) delim ('\\' :: '0' :: d :: r2)
      = (readLiteralF fuel delim (d :: r2)).map fun r => ('\x00' :: r.1, r.2) := by
  have hl : ¬ (('\\' : Char) = '\n' ∨ ('\\' : Char) = '\r') := by decide
  have e1 : ¬ ('0' : Char) = 'n' := by decide
  have e2 : ¬ ('0' : Char) = 'r' := by decide
  have e3 : ¬ ('0' : Char) = 't' := by decide
  have e4 : ¬ ('0' : Char) = 'b' := by decide
  have e5 : ¬ ('0' : Char) = 'v' := by decide
  have e6 : ¬ ('0' : Char) = 'f' := by decide
  simp only [readLiteralF, if_neg hbd, if_neg hl, if_neg e1, if_neg e2, if_neg e3,
    if_neg e4, if_neg e5, if_neg e6, hdig, Bool.false_eq_true, if_false, if_true]

theorem readLiteralF_escape (l : List Char) (delim : Char) (rest : List Char)
    (hd : delim = '\'' ∨ delim = '"') :
    ∀ fuel, nulDigitFree l = true → (l.flatMap escChar).length + 1 ≤ fuel →
      readLiteralF fuel delim ((l.flatMap escChar) ++ delim :: rest) = some (l, rest) := by
  have hbd : ¬ ('\\' : Char) = delim := by rcases hd with h | h <;> subst h <;> decide
  induction l with
  | nil =>
    intro fuel _ hfuel
    obtain ⟨k, rfl⟩ : ∃ k, fuel = Nat.succ k := ⟨fuel - 1, by omega⟩
    rw [List.flatMap_nil, List.nil_append, rl_delim]
  | cons c t ih =>
    intro fuel hfree hfuel
    obtain ⟨k, rfl⟩ : ∃ k, fuel = Nat.succ k := ⟨fuel - 1, by omega⟩
    have hfree2 : nulDigitFree t = true := nulDigitFree_tail c t hfree
    have hcpos : 1 ≤ (escChar c).length := escChar_length_pos c
    have hfuel2 : (t.flatMap escChar).length + 1 ≤ k := by
      rw [List.flatMap_cons, List.length_append] at hfuel
      omega
    rw [List.flatMap_cons, List.append_assoc]
    by_cases h1 : c = '\\'
    · subst h1
      rw [show escChar '\\' = ['\\', '\\'] from rfl]
      rw [show (['\\', '\\'] : List Char) ++ (t.flatMap escChar ++ delim :: rest)
          = '\\' :: '\\' :: (t.flatMap escChar ++ delim :: rest) from rfl]
      rw [rl_esc_ident k delim '\\' _ hbd (by decide) (by decide) (by decide) (by decide)
        (by decide) (by decide) (by decide) (by decide) (by decide) (by decide)
        (by decide) (by decide)]
      rw [ih k hfree2 hfuel2]
      rfl
    · by_cases h2 : c = '\''
      · subst h2
        rw [show escChar '\'' = ['\\', '\''] from rfl]
        rw [show (['\\', '\''] : List Char) ++ (t.flatMap escChar ++ delim :: rest)
            = '\\' :: '\'' :: (t.flatMap escChar ++ delim :: rest) from rfl]
        rw [rl_esc_ident k delim '\'' _ hbd (by decide) (by decide) (by decide) (by decide)
          (by decide) (by decide) (by decide) (by decide) (by decide) (by decide)
          (by decide) (by decide)]
        rw [ih k hfree2 hfuel2]
        rfl
      · by_cases h3 : c = '"'
        · subst h3
          rw [show escChar '"' = ['\\', '"'] from rfl]
          rw [show (['\\', '"'] : List Char) ++ (t.flatMap escChar ++ delim :: rest)
              = '\\' :: '"' :: (t.flatMap escChar ++ delim :: rest) from rfl]
          rw [rl_esc_ident k delim '"' _ hbd (by decide) (by decide) (by decide) (by decide)
            (by decide) (by decide) (by decide) (by decide) (by decide) (by decide)
            (by decide) (by decide)]
          rw [ih k hfree2 hfuel2]
          rfl
        · by_cases h4 : c = '\n'
          · subst h4
            rw [show escChar '\n' = ['\\', 'n'] from rfl]
            rw [show (['\\', 'n'] : List Char) ++ (t.flatMap escChar ++ delim :: rest)
                = '\\' :: 'n' :: (t.flatMap escChar ++ delim :: rest) from rfl]
            rw [rl_esc_n k delim _ hbd, ih k hfree2 hfuel2]
            rfl
          · by_cases h5 : c = '\r'
            · subst h5
              rw [show escChar '\r' = ['\\', 'r'] from rfl]
              rw [show (['\\', 'r'] : List Char) ++ (t.flatMap escChar ++ delim :: rest)
                  = '\\' :: 'r' :: (t.flatMap escChar ++ delim :: rest) from rfl]
              rw [rl_esc_r k delim _ hbd, ih k hfree2 hfuel2]
              rfl
            · by_cases h6 : c = '\t'
              · subst h6
                rw [show escChar '\t' = ['\\', 't'] from rfl]
                rw [show (['\\', 't'] : List Char) ++ (t.flatMap escChar ++ delim :: rest)
                    = '\\' :: 't' :: (t.flatMap escChar ++ delim :: rest) from rfl]
                rw [rl_esc_t k delim _ hbd, ih k hfree2 hfuel2]
                rfl
              · by_cases h7 : c = '\x00'
                · subst h7
                  rw [show escChar '\x00' = ['\\', '0'] from rfl]
                  rw [show (['\\', '0'] : List Char) ++ (t.flatMap escChar ++ delim :: rest)
                      = '\\' :: '0' :: (t.flatMap escChar ++ delim :: rest) from rfl]
                  obtain ⟨d, r2, hshape, hdig⟩ :=
                    escList_cons_head t delim rest hd
                      (fun d r2 ht => by subst ht; exact nulDigitFree_nul_cons d r2 hfree)
                  rw [hshape, rl_esc_nul k delim d r2 hbd hdig, ← hshape,
                    ih k hfree2 hfuel2]
                  rfl
                · rw [show escChar c = [c] by
                      rw [escChar, if_neg h1, if_neg h2, if_neg h3, if_neg h4, if_neg h5,
                        if_neg h6, if_neg h7]]
                  rw [show ([c] : List Char) ++ (t.flatMap escChar ++ delim :: rest)
                      = c :: (t.flatMap escChar ++ delim :: rest) from rfl]
                  have hcne : ¬ c = delim := by
                    rcases hd with h | h <;> subst h
                    · exact h2
                    · exact h3
                  have hcnl : ¬ (c = '\n' ∨ c = '\r') := by
                    intro hcon
                    rcases hcon with h | h
                    · exact h4 h
                    · exact h5 h
                  rw [rl_plain k delim c _ hcne hcnl h1, ih k hfree2 hfuel2]
                  rfl

/-- Claim C9, amended: for every string `s` in which a null byte is never
immediately followed by a decimal digit, embedding `escapeJsString s`
between single or double quotes forms a valid strict-mode string literal
that terminates exactly at the closing delimiter — nothing in the escaped
text can close the literal early — and reading the literal back yields
exactly `s` and exactly the text following the closing delimiter.  Without
that restriction the claim is false: `escapeJsString_nul_digit_breaks`
shows `\x00` followed by a digit escapes to a legacy octal form that no
strict-mode parse accepts. -/
theorem escapeJsString_roundtrip (s : String) (delim : Char) (rest : List Char)
    (hd : delim = '\'' ∨ delim = '"') (hfree : nulDigitFree s.data = true) :
    readLiteral delim ((escapeJsString s).data ++ delim :: rest) = some (s.data, rest) := by
  rw [readLiteral, escapeJsString_data]
  exact readLiteralF_escape s.data delim rest hd _ hfree
    (by rw [List.length_append, List.length_cons]; omega)

/-- Witness for C9 at a string containing every escaped character class. -/
theorem escapeJsString_roundtrip_witness :
    (('\'' : Char) = '\'' ∨ ('\'' : Char) = '"')
      ∧ nulDigitFree "a\\b'c\"d\ne\rf\tg\x00".data = true
      ∧ readLiteral '\'' ((escapeJsString "a\\b'c\"d\ne\rf\tg\x00").data ++ '\'' :: [])
          = some ("a\\b'c\"d\ne\rf\tg\x00".data, []) :=
  ⟨Or.inl rfl, by decide,
   escapeJsString_roundtrip "a\\b'c\"d\ne\rf\tg\x00" '\'' [] (Or.inl rfl) (by decide)⟩

/-- Claim C9, counterexample: a null byte followed by a digit.  The escaper
produces `\0` directly followed by `7`, a legacy octal escape sequence: a
strict-mode parse rejects the literal (and a sloppy parse would decode a
different character), so the embedding is not read back as the original
string. -/
theorem escapeJsString_nul_digit_breaks :
    readLiteral '\'' ((escapeJsString (String.mk ['\x00', '7'])).data ++ '\'' :: []) = none
      ∧ (escapeJsString (String.mk ['\x00', '7'])).data = ['\\', '0', '7'] := by
  refine ⟨by decide, by decide⟩

end Thyme
